import Mathlib

/-!
Verification of the Xcode project-descriptor patcher (`add_files_to_xcode.py`).

The program is embedded shallowly over `List Char`:

* `re.search` on the two delimiter-pair sections is modelled by `findSection`
  (leftmost occurrence of the begin marker, then earliest end marker after it);
* `re.search` on the two labelled-record patterns
  `([A-F0-9]{24}) /* <label> */ = {[^}]+<field> = \(([^)]+)\);` is modelled by
  `searchRec`, which scans start positions left to right and performs the
  greedy backtracking of `[^}]+` (longest first) and `[^)]+` at each start;
* string slicing / concatenation insertion is modelled by `splice`;
* the `uuid.uuid4().hex` entropy source is an explicit list of 32-character
  hexadecimal strings handed to the run; `generate_uuid` is the literal
  translation of `''.join(f'...'.hex).upper()[:24]`.
-/

abbrev Str := List Char

/-- Character of a list at an index, if in range. -/
def nthC : Str → Nat → Option Char
  | [], _ => none
  | c :: _, 0 => some c
  | _ :: t, n + 1 => nthC t n

/-- Boolean test that the first list is a prefix of the second. -/
def pfxB : Str → Str → Bool
  | [], _ => true
  | _ :: _, [] => false
  | c :: n, d :: m => c == d && pfxB n m

/-- The needle `n` occurs in the haystack `h` starting at index `k`. -/
def occAt (n h : Str) (k : Nat) : Prop := ∃ t, h.drop k = n ++ t

/-- Index of the first occurrence of the needle, scanning left to right;
this is the leftmost-match rule of `re.search`. -/
def findOcc (n : Str) : Str → Option Nat
  | [] => if n = [] then some 0 else none
  | c :: t => if pfxB n (c :: t) then some 0 else (findOcc n t).map (· + 1)

/-- Insert `x` into `h` at offset `p`: `h[:p] + x + h[p:]`. -/
def splice (h : Str) (p : Nat) (x : Str) : Str := h.take p ++ x ++ h.drop p

/-- Index (relative) of the first character satisfying `P`. -/
def firstP (P : Char → Bool) : Str → Option Nat
  | [] => none
  | c :: t => if P c then some 0 else (firstP P t).map (· + 1)

/-- Try `f` at `i, i+1, ...` while fuel lasts; first success wins.  Models the
left-to-right scan over candidate match start positions in `re.search`. -/
def scanUp (f : Nat → Option Nat) : Nat → Nat → Option Nat
  | 0, _ => none
  | fuel + 1, i =>
    match f i with
    | some v => some v
    | none => scanUp f fuel (i + 1)

/-- Try `f` at `k, k-1, ..., lo`; first success wins.  Models greedy
backtracking of `[^}]+` (longest candidate first). -/
def scanDown (f : Nat → Option Nat) (lo : Nat) : Nat → Option Nat
  | 0 => if lo = 0 then f 0 else none
  | k + 1 => if k + 1 < lo then none else
    match f (k + 1) with
    | some v => some v
    | none => scanDown f lo k

lemma takeApp (a b : Str) : (a ++ b).take a.length = a := by
  induction a with
  | nil => rfl
  | cons c t ih => simp [ih]

lemma dropApp (a b : Str) : (a ++ b).drop a.length = b := by
  induction a with
  | nil => rfl
  | cons c t ih => simp [ih]

lemma dropApp2 (a b : Str) (d : Nat) : (a ++ b).drop (a.length + d) = b.drop d := by
  induction a with
  | nil => simp
  | cons c t ih => simp [Nat.succ_add, ih]

lemma dropApp_le (a b : Str) (d : Nat) (h : d ≤ a.length) :
    (a ++ b).drop d = a.drop d ++ b := by
  induction a generalizing d with
  | nil => simp at h; simp [h]
  | cons c t ih =>
    cases d with
    | zero => rfl
    | succ d => simp [ih d (by simpa using h)]

lemma takeApp_le (a b : Str) (d : Nat) (h : d ≤ a.length) :
    (a ++ b).take d = a.take d := by
  induction a generalizing d with
  | nil => simp at h; simp [h]
  | cons c t ih =>
    cases d with
    | zero => rfl
    | succ d => simp [ih d (by simpa using h)]

lemma splice_at (a b x : Str) : splice (a ++ b) a.length x = a ++ x ++ b := by
  unfold splice
  rw [takeApp, dropApp]

lemma nthC_append (a b : Str) (r : Nat) : nthC (a ++ b) (a.length + r) = nthC b r := by
  induction a with
  | nil => simp
  | cons c t ih => simpa [Nat.succ_add, nthC] using ih

lemma nthC_lt (a b : Str) (r : Nat) (h : r < a.length) : nthC (a ++ b) r = nthC a r := by
  induction a generalizing r with
  | nil => simp at h
  | cons c t ih =>
    cases r with
    | zero => rfl
    | succ r => simp [nthC, ih r (by simpa using h)]

lemma pfxB_iff (n m : Str) : pfxB n m = true ↔ ∃ t, m = n ++ t := by
  induction n generalizing m with
  | nil => simp [pfxB]
  | cons c nt ih =>
    cases m with
    | nil =>
      simp [pfxB]
    | cons d mt =>
      simp only [pfxB, Bool.and_eq_true, beq_iff_eq, ih]
      constructor
      · rintro ⟨rfl, t, rfl⟩
        exact ⟨t, rfl⟩
      · rintro ⟨t, ht⟩
        cases ht
        exact ⟨rfl, t, rfl⟩

lemma occAt_iff (n h : Str) (k : Nat) : occAt n h k ↔ pfxB n (h.drop k) = true := by
  rw [pfxB_iff]
  exact Iff.rfl

instance occAt_dec (n h : Str) (k : Nat) : Decidable (occAt n h k) :=
  decidable_of_iff _ (occAt_iff n h k).symm

lemma occAt_here (X n t : Str) : occAt n (X ++ n ++ t) X.length :=
  ⟨t, by rw [List.append_assoc, dropApp]⟩

lemma occAt_len (n h : Str) (k : Nat) (hn : n ≠ []) (h1 : occAt n h k) :
    k + n.length ≤ h.length := by
  obtain ⟨t, ht⟩ := h1
  by_cases hk : k ≤ h.length
  · have := congrArg List.length ht
    simp [List.length_drop] at this
    omega
  · exfalso
    have : h.drop k = [] := List.drop_of_length_le (by omega)
    rw [this] at ht
    exact hn (List.append_eq_nil.mp ht.symm).1

lemma occAt_zero (n h : Str) : occAt n h 0 ↔ ∃ u, h = n ++ u := by
  simp [occAt]

lemma occAt_succ_cons (n t : Str) (c : Char) (k : Nat) :
    occAt n (c :: t) (k + 1) ↔ occAt n t k := Iff.rfl

lemma occAt_front (n A Y : Str) (k : Nat) (hke : k + n.length ≤ A.length)
    (h1 : occAt n (A ++ Y) k) : occAt n A k := by
  obtain ⟨t, ht⟩ := h1
  have hk : k ≤ A.length := by omega
  rw [dropApp_le A Y k hk] at ht
  have hlen : n.length ≤ (A.drop k).length := by
    simp [List.length_drop]; omega
  have h2 := congrArg (List.take n.length) ht
  rw [takeApp_le _ _ _ hlen, takeApp] at h2
  refine ⟨(A.drop k).drop n.length, ?_⟩
  calc A.drop k = (A.drop k).take n.length ++ (A.drop k).drop n.length :=
        (List.take_append_drop _ _).symm
    _ = n ++ (A.drop k).drop n.length := by rw [h2]

lemma occAt_within (n X R Y : Str) (j : Nat) (hj : X.length ≤ j)
    (hje : j + n.length ≤ X.length + R.length) (h1 : occAt n (X ++ R ++ Y) j) :
    occAt n R (j - X.length) := by
  have hfront : occAt n (X ++ R) j := by
    apply occAt_front n (X ++ R) Y j (by simp [List.length_append]; omega)
    have : X ++ R ++ Y = (X ++ R) ++ Y := rfl
    rwa [← this]
  obtain ⟨t, ht⟩ := hfront
  have hd : j = X.length + (j - X.length) := by omega
  rw [hd, dropApp2] at ht
  exact ⟨t, ht⟩

lemma occAt_embed (n R X Y : Str) (r : Nat) (hr : r ≤ R.length) (h1 : occAt n R r) :
    occAt n (X ++ R ++ Y) (X.length + r) := by
  obtain ⟨t, ht⟩ := h1
  refine ⟨t ++ Y, ?_⟩
  rw [List.append_assoc, dropApp2, dropApp_le R Y r hr, ht]
  simp [List.append_assoc]

lemma nthC_drop (k : Nat) : ∀ (h : Str) (r : Nat), nthC (h.drop k) r = nthC h (k + r) := by
  induction k with
  | zero => intro h r; simp
  | succ k ih =>
    intro h r
    cases h with
    | nil => simp [nthC]
    | cons c t =>
      have hs : k + 1 + r = (k + r) + 1 := by omega
      rw [List.drop_succ_cons, ih t r, hs]
      rfl

lemma occAt_nthC (n h : Str) (k r : Nat) (hr : r < n.length) (h1 : occAt n h k) :
    nthC h (k + r) = nthC n r := by
  obtain ⟨t, ht⟩ := h1
  have h2 : nthC (h.drop k) r = nthC n r := by
    rw [ht]; exact nthC_lt n t r hr
  rw [← nthC_drop k h r, h2]

/-- The filler `a` introduces no occurrence of `n` strictly before the copy of
`n` that follows it (junction occurrences included). -/
def noPre (n a : Str) : Prop := ∀ k < a.length, ¬ occAt n (a ++ n) k

instance noPre_dec (n a : Str) : Decidable (noPre n a) := by
  unfold noPre
  infer_instance

lemma noPre_no_occ (n a rest : Str) (h : noPre n a) (k : Nat) (hk : k < a.length) :
    ¬ occAt n (a ++ n ++ rest) k := by
  intro hocc
  have h2 : occAt n (a ++ n) k :=
    occAt_front n (a ++ n) rest k (by simp [List.length_append]; omega) hocc
  exact h k hk h2

lemma findOcc_eq_some_iff (n h : Str) (k : Nat) :
    findOcc n h = some k ↔ occAt n h k ∧ ∀ j < k, ¬ occAt n h j := by
  induction h generalizing k with
  | nil =>
    constructor
    · intro hf
      unfold findOcc at hf
      by_cases hn : n = []
      · rw [if_pos hn] at hf
        injection hf with hf0
        subst hf0
        subst hn
        exact ⟨⟨[], by simp⟩, by omega⟩
      · rw [if_neg hn] at hf
        exact absurd hf (by simp)
    · rintro ⟨⟨t, ht⟩, hmin⟩
      have hd : (([] : Str)).drop k = [] := by simp
      rw [hd] at ht
      have hn : n = [] := (List.append_eq_nil.mp ht.symm).1
      subst hn
      have hk : k = 0 := by
        by_contra hk0
        exact hmin 0 (by omega) ⟨[], by simp⟩
      subst hk
      simp [findOcc]
  | cons c t ih =>
    constructor
    · intro hf
      unfold findOcc at hf
      by_cases hp : pfxB n (c :: t) = true
      · rw [if_pos hp] at hf
        injection hf with hf0
        subst hf0
        refine ⟨(occAt_iff _ _ _).mpr (by simpa using hp), by omega⟩
      · rw [if_neg hp] at hf
        cases hfo : findOcc n t with
        | none => rw [hfo] at hf; exact absurd hf (by simp)
        | some j =>
          rw [hfo] at hf
          simp only [Option.map_some'] at hf
          injection hf with hf0
          subst hf0
          obtain ⟨hocc', hmin'⟩ := (ih j).mp hfo
          refine ⟨(occAt_succ_cons n t c j).mpr hocc', ?_⟩
          intro i hi
          cases i with
          | zero =>
            intro hz
            exact hp (by simpa using (occAt_iff _ _ _).mp hz)
          | succ i =>
            intro hs
            exact hmin' i (by omega) ((occAt_succ_cons n t c i).mp hs)
    · rintro ⟨hocc, hmin⟩
      unfold findOcc
      by_cases hp : pfxB n (c :: t) = true
      · rw [if_pos hp]
        have hk : k = 0 := by
          by_contra hk0
          exact hmin 0 (by omega) ((occAt_iff _ _ _).mpr (by simpa using hp))
        rw [hk]
      · rw [if_neg hp]
        cases k with
        | zero =>
          exfalso
          exact hp (by simpa using (occAt_iff _ _ _).mp hocc)
        | succ j =>
          have : findOcc n t = some j := (ih j).mpr
            ⟨(occAt_succ_cons n t c j).mp hocc,
             fun i hi hoi => hmin (i + 1) (by omega) ((occAt_succ_cons n t c i).mpr hoi)⟩
          rw [this]
          rfl

lemma scanUp_spec (f : Nat → Option Nat) (fuel i m v : Nat)
    (him : i ≤ m) (hm : m < i + fuel)
    (hnone : ∀ j, i ≤ j → j < m → f j = none) (hv : f m = some v) :
    scanUp f fuel i = some v := by
  induction fuel generalizing i with
  | zero => omega
  | succ fuel ih =>
    unfold scanUp
    by_cases him0 : i = m
    · subst him0
      rw [hv]
    · rw [hnone i (le_refl i) (by omega)]
      exact ih (i + 1) (by omega) (by omega) (fun j hj1 hj2 => hnone j (by omega) hj2)

lemma scanUp_none (f : Nat → Option Nat) (fuel i : Nat) (h : ∀ j, f j = none) :
    scanUp f fuel i = none := by
  induction fuel generalizing i with
  | zero => rfl
  | succ fuel ih =>
    unfold scanUp
    rw [h i]
    exact ih (i + 1)

lemma scanDown_spec (f : Nat → Option Nat) (lo K k v : Nat)
    (hlo : lo ≤ k) (hK : k ≤ K)
    (hnone : ∀ j, k < j → j ≤ K → f j = none) (hv : f k = some v) :
    scanDown f lo K = some v := by
  induction K with
  | zero =>
    have hk0 : k = 0 := by omega
    subst hk0
    have hl0 : lo = 0 := by omega
    unfold scanDown
    rw [if_pos hl0, hv]
  | succ K ih =>
    unfold scanDown
    rw [if_neg (by omega)]
    by_cases hk : k = K + 1
    · subst hk
      rw [hv]
    · rw [hnone (K + 1) (by omega) (le_refl _)]
      exact ih (by omega) (fun j h1 h2 => hnone j h1 (by omega))

lemma scanDown_none (f : Nat → Option Nat) (lo K : Nat)
    (h : ∀ j, lo ≤ j → j ≤ K → f j = none) :
    scanDown f lo K = none := by
  induction K with
  | zero =>
    unfold scanDown
    by_cases h0 : lo = 0
    · rw [if_pos h0, h 0 (by omega) (le_refl _)]
    · rw [if_neg h0]
  | succ K ih =>
    unfold scanDown
    by_cases hlt : K + 1 < lo
    · rw [if_pos hlt]
    · rw [if_neg hlt, h (K + 1) (by omega) (le_refl _)]
      exact ih (fun j h1 h2 => h j h1 (by omega))

lemma firstP_append (P : Char → Bool) (a : Str) (c : Char) (b : Str)
    (ha : ∀ x ∈ a, P x = false) (hc : P c = true) :
    firstP P (a ++ c :: b) = some a.length := by
  induction a with
  | nil => simp [firstP, hc]
  | cons d t ih =>
    have hd : P d = false := ha d (by simp)
    simp [firstP, hd, ih (fun x hx => ha x (by simp [hx]))]

lemma firstP_none (P : Char → Bool) (a : Str) (ha : ∀ x ∈ a, P x = false) :
    firstP P a = none := by
  induction a with
  | nil => rfl
  | cons d t ih =>
    simp [firstP, ha d (by simp), ih (fun x hx => ha x (by simp [hx]))]

/-- Model of `re.search(r'(<begin>.*?<end>)', content, re.DOTALL)`, returning
`match.end()`: the leftmost begin-marker occurrence followed by the earliest
end-marker occurrence after it. -/
def findSection (bm em h : Str) : Option Nat :=
  match findOcc bm h with
  | none => none
  | some i =>
    match findOcc em (h.drop (i + bm.length)) with
    | none => none
    | some d => some (i + bm.length + d + em.length)

lemma findSection_spec (bm em a m rest : Str)
    (hpb : noPre bm a) (hpe : noPre em m) :
    findSection bm em (a ++ bm ++ m ++ em ++ rest)
      = some (a.length + bm.length + m.length + em.length) := by
  have h1 : findOcc bm (a ++ bm ++ m ++ em ++ rest) = some a.length := by
    rw [findOcc_eq_some_iff]
    constructor
    · have h0 := occAt_here a bm (m ++ em ++ rest)
      simp only [List.append_assoc] at h0 ⊢
      exact h0
    · intro j hj
      have h0 := noPre_no_occ bm a (m ++ em ++ rest) hpb j hj
      simp only [List.append_assoc] at h0 ⊢
      exact h0
  have h2 : (a ++ bm ++ m ++ em ++ rest).drop (a.length + bm.length)
      = m ++ em ++ rest := by
    have hl : a.length + bm.length = (a ++ bm).length := by simp
    have hs : a ++ bm ++ m ++ em ++ rest = (a ++ bm) ++ (m ++ em ++ rest) := by
      simp [List.append_assoc]
    rw [hl, hs, dropApp]
  have h3 : findOcc em (m ++ em ++ rest) = some m.length := by
    rw [findOcc_eq_some_iff]
    constructor
    · exact occAt_here m em rest
    · intro j hj
      exact noPre_no_occ em m rest hpe j hj
  unfold findSection
  rw [h1]
  simp only [h2, h3]

/-- Shorthand: a Lean string literal as a character list. -/
def strL (s : String) : Str := s.toList

/-- Begin marker of the PBXFileReference section (regex literal, line 31). -/
def bFR : Str := strL "/* Begin PBXFileReference section */"

/-- End marker of the PBXFileReference section (regex literal, line 31). -/
def eFR : Str := strL "/* End PBXFileReference section */"

/-- Begin marker of the PBXBuildFile section (regex literal, line 99). -/
def bBF : Str := strL "/* Begin PBXBuildFile section */"

/-- End marker of the PBXBuildFile section (regex literal, line 99). -/
def eBF : Str := strL "/* End PBXBuildFile section */"

/-- `[A-F0-9]`: an uppercase hexadecimal digit. -/
def hexUC (c : Char) : Bool :=
  (decide ('A' ≤ c) && decide (c ≤ 'F')) || (decide ('0' ≤ c) && decide (c ≤ '9'))

/-- The literal part ` /* <label> */ = {` of the record regexes
(lines 55 and 79). -/
def lit24 (lbl : Str) : Str := strL " /* " ++ lbl ++ strL " */ = \x7b"

/-- The literal part `<field> = (` of the record regexes (`children = (` on
line 55, `files = (` on line 79). -/
def chLit (fld : Str) : Str := fld ++ strL " = ("

/-- Boolean occurrence test. -/
def occB (n h : Str) (k : Nat) : Bool := pfxB n (h.drop k)

/-- `[A-F0-9]{24}` matched at index `i`. -/
def hex24At (h : Str) (i : Nat) : Bool :=
  ((h.drop i).take 24).length == 24 && ((h.drop i).take 24).all hexUC

/-- End of the maximal `[^}]*` run starting at `p0`: index of the first `}`
at or after `p0`, or the text length when there is none. -/
def runEnd (h : Str) (p0 : Nat) : Nat :=
  match firstP (fun c => c == '\x7d') (h.drop p0) with
  | none => h.length
  | some d => p0 + d

/-- Match `([^)]+)\);` starting at `q0`: the (greedy) run of non-`)`
characters must be nonempty and be followed by `);`.  Returns the absolute
end offset of capture group 2 (`match.end(2)`), i.e. the index of the `)`. -/
def qCheck (h : Str) (q0 : Nat) : Option Nat :=
  match firstP (fun c => c == ')') (h.drop q0) with
  | none => none
  | some d =>
    if d = 0 then none
    else if nthC h (q0 + d + 1) = some ';' then some (q0 + d) else none

/-- One backtracking candidate for `[^}]+<field> = \(([^)]+)\);`: the literal
`<field> = (` must occur at `k`, then the list capture must close. -/
def tryK (cl : Str) (h : Str) (k : Nat) : Option Nat :=
  if occB cl h k then qCheck h (k + cl.length) else none

/-- Match of `([A-F0-9]{24}) /* <label> */ = {[^}]+<field> = \(([^)]+)\);`
anchored at start position `i`, with the greedy backtracking `re` performs:
`[^}]+` tries the longest candidate first (positions `runEnd` down to one
past the `{`).  Returns `match.end(2)` on success. -/
def matchRecAt (lbl fld : Str) (h : Str) (i : Nat) : Option Nat :=
  if hex24At h i && occB (lit24 lbl) h (i + 24) then
    scanDown (tryK (chLit fld) h) (i + 24 + (lit24 lbl).length + 1)
      (runEnd h (i + 24 + (lit24 lbl).length))
  else none

/-- `re.search` for the labelled-record regex: leftmost matching start
position wins. -/
def searchRec (lbl fld : Str) (h : Str) : Option Nat :=
  scanUp (matchRecAt lbl fld h) (h.length + 1) 0

/-- Model of `generate_uuid` (line 13): `uuid.uuid4().hex`, handed in as the
explicit entropy outcome `hex32`, is upper-cased and truncated to
24 characters. -/
def pyUpperChar (c : Char) : Char :=
  if 'a' ≤ c ∧ c ≤ 'z' then Char.ofNat (c.toNat - 32) else c

/-- `''.join(f'...uuid4().hex').upper()[:24]`. -/
def generate_uuid (hex32 : Str) : Str := (hex32.map pyUpperChar).take 24

/-- The tokens a run consumes: `generate_uuid` applied to the successive
`uuid4` outcomes. -/
def mkToks (entropy : List Str) : List Str := entropy.map generate_uuid

/-- The dictionaries `file_refs` / `build_refs` built by the loop on
lines 25-27: one pair of fresh tokens is drawn per list element (duplicates
included), and a repeated filename overwrites its previous entry. -/
def mkDicts (toks : List Str) :
    List Str → Nat → (Str → Option Str) → (Str → Option Str) →
    ((Str → Option Str) × (Str → Option Str))
  | [], _, fr, br => (fr, br)
  | f :: rest, n, fr, br =>
    mkDicts toks rest (n + 2)
      (fun g => if g = f then some (toks.getD n []) else fr g)
      (fun g => if g = f then some (toks.getD (n + 1) []) else br g)

/-- The two dictionaries after the generation loop. -/
def dicts (files toks : List Str) : (Str → Option Str) × (Str → Option Str) :=
  mkDicts toks files 0 (fun _ => none) (fun _ => none)

/-- Dictionary lookup (always hits for filenames of the run's list). -/
def lookupD (d : Str → Option Str) (f : Str) : Str := (d f).getD []

/-- Reference identifier used for a filename (`file_refs[filename]`). -/
def refId (files toks : List Str) (f : Str) : Str := lookupD (dicts files toks).1 f

/-- Membership identifier used for a filename (`build_refs[filename]`). -/
def memId (files toks : List Str) (f : Str) : Str := lookupD (dicts files toks).2 f

/-- File-reference record rendered on line 46. -/
def mkFileRefLine (id f : Str) : Str :=
  strL "\t\t" ++ id ++ strL " /* " ++ f ++
    strL " */ = \x7bisa = PBXFileReference; lastKnownFileType = sourcecode.swift; path = " ++
    f ++ strL "; sourceTree = \"<group>\"; \x7d;\n"

/-- Group-child record rendered on line 70. -/
def childLine (id f : Str) : Str :=
  strL "\t\t\t\t" ++ id ++ strL " /* " ++ f ++ strL " */,\n"

/-- Build-phase-file record rendered on line 91. -/
def phaseLine (bid f : Str) : Str :=
  strL "\t\t\t\t" ++ bid ++ strL " /* " ++ f ++ strL " in Sources */,\n"

/-- Build-file-declaration record rendered on line 111. -/
def declLine (bid rid f : Str) : Str :=
  strL "\t\t" ++ bid ++ strL " /* " ++ f ++
    strL " in Sources */ = \x7bisa = PBXBuildFile; fileRef = " ++ rid ++
    strL " /* " ++ f ++ strL " */; \x7d;\n"

/-- Concatenation of a list of fragments (`''.join(...)`). -/
def joinL (l : List Str) : Str := l.foldr (· ++ ·) []

/-- The file-reference fragments, in input order (lines 44-47). -/
def refFrags (files toks : List Str) : List Str :=
  files.map (fun f => mkFileRefLine (refId files toks f) f)

/-- The group-child fragments, in input order (lines 68-71). -/
def childFrags (files toks : List Str) : List Str :=
  files.map (fun f => childLine (refId files toks f) f)

/-- The build-phase-file fragments, in input order (lines 89-92). -/
def phaseFrags (files toks : List Str) : List Str :=
  files.map (fun f => phaseLine (memId files toks f) f)

/-- The build-file-declaration fragments, in input order (lines 109-112). -/
def declFrags (files toks : List Str) : List Str :=
  files.map (fun f => declLine (memId files toks f) (refId files toks f) f)

/-- Step 1 (lines 30-51): locate the PBXFileReference section and splice the
new file-reference records at `match.end() - len('<end marker>\n')`. -/
def step1 (content : Str) (files toks : List Str) : Option Str :=
  (findSection bFR eFR content).map
    (fun e => splice content (e - (eFR.length + 1)) (joinL (refFrags files toks)))

/-- Step 2 (lines 53-75): locate the Models group and splice the new children
at `match.end(2)`. -/
def step2 (c1 : Str) (files toks : List Str) : Option Str :=
  (searchRec (strL "Models") (strL "children") c1).map
    (fun e => splice c1 e (joinL (childFrags files toks)))

/-- Step 3 (lines 77-95): locate the Sources build phase and splice the new
build-file entries at `match.end(2)`. -/
def step3 (c2 : Str) (files toks : List Str) : Option Str :=
  (searchRec (strL "Sources") (strL "files") c2).map
    (fun e => splice c2 e (joinL (phaseFrags files toks)))

/-- Step 4 (lines 97-115): locate the PBXBuildFile section and splice the new
build-file declarations at `match.end() - len('<end marker>\n')`. -/
def step4 (c3 : Str) (files toks : List Str) : Option Str :=
  (findSection bBF eBF c3).map
    (fun e => splice c3 (e - (eBF.length + 1)) (joinL (declFrags files toks)))

/-- The four failure diagnostics of `add_files_to_pbxproj`. -/
inductive Err : Type
  | fileRefSection : Err
  | modelsGroup : Err
  | sourcesPhase : Err
  | buildFileSection : Err
deriving DecidableEq

/-- The printed diagnostic for each failure (lines 37, 61, 85, 105). -/
def errMsg : Err → Str
  | Err.fileRefSection => strL "Error: Could not find PBXFileReference section"
  | Err.modelsGroup => strL "Error: Could not find Models group"
  | Err.sourcesPhase => strL "Error: Could not find Sources build phase"
  | Err.buildFileSection => strL "Error: Could not find PBXBuildFile section"

/-- `add_files_to_pbxproj` (lines 15-122) as a pure transformation of the
descriptor text: `.ok text` is the text written back to the file,
`.error e` a failure return (`False`) before any write. -/
def add_files_to_pbxproj (content : Str) (files toks : List Str) : Except Err Str :=
  match step1 content files toks with
  | none => Except.error Err.fileRefSection
  | some c1 =>
    match step2 c1 files toks with
    | none => Except.error Err.modelsGroup
    | some c2 =>
      match step3 c2 files toks with
      | none => Except.error Err.sourcesPhase
      | some c3 =>
        match step4 c3 files toks with
        | none => Except.error Err.buildFileSection
        | some c4 => Except.ok c4

/-- File contents on disk after the call: the function writes only in the
all-steps-succeeded branch (lines 117-119); on failure the original file is
untouched. -/
def diskAfter (orig : Str) (r : Except Err Str) : Str :=
  match r with
  | Except.ok s => s
  | Except.error _ => orig

/-- One of the four locate steps fails (on the intermediate text that step
actually searches). -/
def locFails (content : Str) (files toks : List Str) : Prop :=
  step1 content files toks = none
  ∨ (∃ c1, step1 content files toks = some c1 ∧ step2 c1 files toks = none)
  ∨ (∃ c1 c2, step1 content files toks = some c1 ∧ step2 c1 files toks = some c2 ∧
      step3 c2 files toks = none)
  ∨ (∃ c1 c2 c3, step1 content files toks = some c1 ∧ step2 c1 files toks = some c2 ∧
      step3 c2 files toks = some c3 ∧ step4 c3 files toks = none)

/-- The hardcoded file list of the `__main__` block (line 126). -/
def mainFiles : List Str := [strL "Activity.swift", strL "ActivityMigration.swift"]

/-- The `__main__` block (lines 124-133): what is written to disk, and the
process exit status. -/
def runMain (content : Str) (toks : List Str) : Option Str × Nat :=
  match add_files_to_pbxproj content mainFiles toks with
  | Except.ok s => (some s, 0)
  | Except.error _ => (none, 1)

/-- The characters `uuid.uuid4().hex` can produce. -/
def lowHexChars : Str := strL "0123456789abcdef"

/-- Uppercase hexadecimal digits. -/
def upHexChars : Str := strL "0123456789ABCDEF"

/-- Shape of a `uuid.uuid4().hex` outcome: 32 lowercase hex characters with
the version nibble `4` at index 12 and a variant nibble in `89ab` at
index 16. -/
def isUUID4Hex (h : Str) : Prop :=
  h.length = 32 ∧ (∀ c ∈ h, c ∈ lowHexChars) ∧ nthC h 12 = some '4' ∧
    (nthC h 16 = some '8' ∨ nthC h 16 = some '9' ∨
     nthC h 16 = some 'a' ∨ nthC h 16 = some 'b')

lemma pyUpperChar_mem : ∀ d ∈ lowHexChars, pyUpperChar d ∈ upHexChars := by decide

lemma pyUpperChar_inj :
    ∀ c ∈ lowHexChars, ∀ d ∈ lowHexChars, pyUpperChar c = pyUpperChar d → c = d := by
  decide

instance isUUID4Hex_dec (h : Str) : Decidable (isUUID4Hex h) := by
  unfold isUUID4Hex
  infer_instance

/-- Claim C6: every call to `generate_uuid` returns a string of exactly
24 characters, each an uppercase hexadecimal digit, given that the
underlying `uuid4().hex` outcome is a 32-character lowercase hex string. -/
theorem claim_C6 (h : Str) (hlen : h.length = 32) (hhex : ∀ c ∈ h, c ∈ lowHexChars) :
    (generate_uuid h).length = 24 ∧ ∀ c ∈ generate_uuid h, c ∈ upHexChars := by
  constructor
  · simp [generate_uuid, List.length_take, List.length_map, hlen]
  · intro c hc
    have hc2 : c ∈ h.map pyUpperChar := List.mem_of_mem_take hc
    obtain ⟨d, hd, rfl⟩ := List.mem_map.mp hc2
    exact pyUpperChar_mem d (hhex d hd)

theorem claim_C6_witness :
    (strL "9f86d081884c7d659a2feaa0c55ad015").length = 32 ∧
    (generate_uuid (strL "9f86d081884c7d659a2feaa0c55ad015")).length = 24 ∧
    ∀ c ∈ generate_uuid (strL "9f86d081884c7d659a2feaa0c55ad015"), c ∈ upHexChars := by
  refine ⟨by decide, ?_⟩
  exact claim_C6 (strL "9f86d081884c7d659a2feaa0c55ad015") (by decide) (by decide)

/-- First entropy outcome of the C7 counterexample: a well-formed `uuid4`
hex value. -/
def u4a : Str := strL "0123456789ab4def8123456789abcde0"

/-- Second entropy outcome: also well-formed, distinct from `u4a`, but equal
to it on the first 24 characters. -/
def u4b : Str := strL "0123456789ab4def8123456789abcde1"

/-- Claim C7 counterexample: two distinct calls to `generate_uuid` can return
the same token.  The two underlying `uuid4` outcomes `u4a` and `u4b` are
distinct well-formed uuid4 hex values, yet truncation to 24 characters makes
the two generated identifiers equal, so in a run on one filename the
reference identifier equals the membership identifier. -/
theorem claim_C7_counterexample :
    isUUID4Hex u4a ∧ isUUID4Hex u4b ∧ u4a ≠ u4b ∧
    generate_uuid u4a = generate_uuid u4b ∧
    refId [strL "Activity.swift"] (mkToks [u4a, u4b]) (strL "Activity.swift")
      = memId [strL "Activity.swift"] (mkToks [u4a, u4b]) (strL "Activity.swift") := by
  refine ⟨by decide, by decide, by decide, by decide, by decide⟩

lemma map_pyUpper_inj (a b : Str) (ha : ∀ c ∈ a, c ∈ lowHexChars)
    (hb : ∀ c ∈ b, c ∈ lowHexChars)
    (h : a.map pyUpperChar = b.map pyUpperChar) : a = b := by
  induction a generalizing b with
  | nil => cases b with
    | nil => rfl
    | cons d t => simp at h
  | cons c t ih =>
    cases b with
    | nil => simp at h
    | cons d u =>
      simp only [List.map_cons, List.cons.injEq] at h
      have hcd : c = d :=
        pyUpperChar_inj c (ha c (by simp)) d (hb d (by simp)) h.1
      have htu : t = u := ih u (fun x hx => ha x (by simp [hx]))
        (fun x hx => hb x (by simp [hx])) h.2
      rw [hcd, htu]

/-- Claim C7 (amended): identifiers returned by two calls to `generate_uuid`
differ whenever the underlying `uuid4().hex` outcomes differ within their
first 24 characters; agreement on that truncated prefix (possible even for
distinct, well-formed uuid4 values) yields equal tokens, so the claimed
unconditional uniqueness does not hold. -/
theorem claim_C7 (h1 h2 : Str) (l1 : ∀ c ∈ h1, c ∈ lowHexChars)
    (l2 : ∀ c ∈ h2, c ∈ lowHexChars) (hne : h1.take 24 ≠ h2.take 24) :
    generate_uuid h1 ≠ generate_uuid h2 := by
  intro he
  apply hne
  unfold generate_uuid at he
  rw [← List.map_take, ← List.map_take] at he
  exact map_pyUpper_inj _ _ (fun c hc => l1 c (List.mem_of_mem_take hc))
    (fun c hc => l2 c (List.mem_of_mem_take hc)) he

theorem claim_C7_witness :
    generate_uuid (strL "0123456789ab4def8123456789abcde0")
      ≠ generate_uuid (strL "aaaaaaaaaaaa4aaa8aaaaaaaaaaaaaaa") :=
  claim_C7 _ _ (by decide) (by decide) (by decide)

/-- Element of a list of strings at an index. -/
def nthF : List Str → Nat → Option Str
  | [], _ => none
  | c :: _, 0 => some c
  | _ :: t, n + 1 => nthF t n

/-- Index of the last occurrence of `f` in the list, if any. -/
def lastIdx : List Str → Str → Option Nat
  | [], _ => none
  | x :: t, f =>
    match lastIdx t f with
    | some k => some (k + 1)
    | none => if x = f then some 0 else none

lemma nthF_map (g : Str → Str) (l : List Str) (i : Nat) :
    nthF (l.map g) i = (nthF l i).map g := by
  induction l generalizing i with
  | nil => simp [nthF]
  | cons c t ih =>
    cases i with
    | zero => rfl
    | succ i => simpa [nthF] using ih i

lemma mkDicts_fst (toks : List Str) (files : List Str) (f : Str) :
    ∀ (n : Nat) (fr br : Str → Option Str),
    (mkDicts toks files n fr br).1 f =
      match lastIdx files f with
      | some k => some (toks.getD (n + 2 * k) [])
      | none => fr f := by
  induction files with
  | nil => intro n fr br; simp [mkDicts, lastIdx]
  | cons x t ih =>
    intro n fr br
    rw [mkDicts, ih]
    cases hlt : lastIdx t f with
    | some k =>
      simp only [lastIdx, hlt]
      have : n + 2 + 2 * k = n + 2 * (k + 1) := by omega
      rw [this]
    | none =>
      simp only [lastIdx, hlt]
      by_cases hxf : x = f
      · subst hxf
        simp
      · rw [if_neg hxf, if_neg (fun hfx => hxf hfx.symm)]

lemma mkDicts_snd (toks : List Str) (files : List Str) (f : Str) :
    ∀ (n : Nat) (fr br : Str → Option Str),
    (mkDicts toks files n fr br).2 f =
      match lastIdx files f with
      | some k => some (toks.getD (n + 2 * k + 1) [])
      | none => br f := by
  induction files with
  | nil => intro n fr br; simp [mkDicts, lastIdx]
  | cons x t ih =>
    intro n fr br
    rw [mkDicts, ih]
    cases hlt : lastIdx t f with
    | some k =>
      simp only [lastIdx, hlt]
      have : n + 2 + 2 * k + 1 = n + 2 * (k + 1) + 1 := by omega
      rw [this]
    | none =>
      simp only [lastIdx, hlt]
      by_cases hxf : x = f
      · subst hxf
        simp
      · rw [if_neg hxf, if_neg (fun hfx => hxf hfx.symm)]

lemma lastIdx_of_nthF (files : List Str) (f : Str) (j : Nat)
    (hj : nthF files j = some f) : ∃ k, lastIdx files f = some k ∧ j ≤ k := by
  induction files generalizing j with
  | nil => simp [nthF] at hj
  | cons x t ih =>
    cases j with
    | zero =>
      cases hlt : lastIdx t f with
      | some k => exact ⟨k + 1, by simp [lastIdx, hlt], by omega⟩
      | none =>
        have hx : x = f := by
          have : some x = some f := hj
          injection this
        exact ⟨0, by simp [lastIdx, hlt, hx], le_refl 0⟩
    | succ j =>
      obtain ⟨k, hk, hjk⟩ := ih j hj
      exact ⟨k + 1, by simp [lastIdx, hk], by omega⟩

lemma lastIdx_spec (files : List Str) (f : Str) (k : Nat)
    (h : lastIdx files f = some k) :
    nthF files k = some f ∧ ∀ m, k < m → nthF files m ≠ some f := by
  induction files generalizing k with
  | nil => simp [lastIdx] at h
  | cons x t ih =>
    unfold lastIdx at h
    cases hlt : lastIdx t f with
    | some k' =>
      rw [hlt] at h
      injection h with hk
      subst hk
      obtain ⟨h1, h2⟩ := ih k' hlt
      refine ⟨h1, ?_⟩
      intro m hm
      cases m with
      | zero => omega
      | succ m => exact h2 m (by omega)
    | none =>
      rw [hlt] at h
      by_cases hxf : x = f
      · rw [if_pos hxf] at h
        injection h with hk
        subst hk
        refine ⟨by simp [nthF, hxf], ?_⟩
        intro m hm
        cases m with
        | zero => omega
        | succ m =>
          intro hms
          obtain ⟨k2, hk2, _⟩ := lastIdx_of_nthF t f m hms
          rw [hlt] at hk2
          exact absurd hk2 (by simp)
      · rw [if_neg hxf] at h
        exact absurd h (by simp)

/-- Claim C9: when the same filename occurs at two positions `i < j` of
`files_to_add`, every rendered record for it uses the single identifier pair
drawn at its last occurrence `k` (the dictionary entry written last), so the
four fragment lists carry duplicate records with equal identifiers at
positions `i` and `j`. -/
theorem claim_C9 (files toks : List Str) (f : Str) (i j : Nat)
    (_hij : i < j) (hi : nthF files i = some f) (hj : nthF files j = some f) :
    ∃ k, lastIdx files f = some k ∧ j ≤ k ∧ nthF files k = some f ∧
      (∀ m, k < m → nthF files m ≠ some f) ∧
      refId files toks f = toks.getD (2 * k) [] ∧
      memId files toks f = toks.getD (2 * k + 1) [] ∧
      nthF (refFrags files toks) i = some (mkFileRefLine (toks.getD (2 * k) []) f) ∧
      nthF (refFrags files toks) j = nthF (refFrags files toks) i ∧
      nthF (childFrags files toks) j = nthF (childFrags files toks) i ∧
      nthF (phaseFrags files toks) j = nthF (phaseFrags files toks) i ∧
      nthF (declFrags files toks) j = nthF (declFrags files toks) i := by
  obtain ⟨k, hk, hjk⟩ := lastIdx_of_nthF files f j hj
  obtain ⟨hkth, hmax⟩ := lastIdx_spec files f k hk
  have href : refId files toks f = toks.getD (2 * k) [] := by
    unfold refId lookupD dicts
    rw [mkDicts_fst, hk]
    simp
  have hmem : memId files toks f = toks.getD (2 * k + 1) [] := by
    unfold memId lookupD dicts
    rw [mkDicts_snd, hk]
    simp
  refine ⟨k, hk, hjk, hkth, hmax, href, hmem, ?_, ?_, ?_, ?_, ?_⟩
  · unfold refFrags
    rw [nthF_map, hi]
    simp [href]
  · unfold refFrags
    rw [nthF_map, nthF_map, hi, hj]
  · unfold childFrags
    rw [nthF_map, nthF_map, hi, hj]
  · unfold phaseFrags
    rw [nthF_map, nthF_map, hi, hj]
  · unfold declFrags
    rw [nthF_map, nthF_map, hi, hj]

/-- A filename list with a duplicate, for the C9 witness. -/
def demoDup : List Str := [strL "A.swift", strL "A.swift"]

/-- Token pool for the C9 witness. -/
def demoToks : List Str :=
  [strL "T0", strL "T1", strL "T2", strL "T3"]

theorem claim_C9_witness :
    ∃ k, lastIdx demoDup (strL "A.swift") = some k ∧ 1 ≤ k ∧
      refId demoDup demoToks (strL "A.swift") = demoToks.getD (2 * k) [] := by
  obtain ⟨k, h1, h2, _, _, h5, _, _, _, _, _, _⟩ :=
    claim_C9 demoDup demoToks (strL "A.swift") 0 1 (by omega) rfl rfl
  exact ⟨k, h1, h2, h5⟩

lemma add_files_error_of_locFails (content : Str) (files toks : List Str)
    (hf : locFails content files toks) :
    (∃ e, add_files_to_pbxproj content files toks = Except.error e) ∧
    diskAfter content (add_files_to_pbxproj content files toks) = content := by
  rcases hf with h1 | ⟨c1, h1, h2⟩ | ⟨c1, c2, h1, h2, h3⟩ | ⟨c1, c2, c3, h1, h2, h3, h4⟩
  · exact ⟨⟨Err.fileRefSection, by simp [add_files_to_pbxproj, h1]⟩,
      by simp [add_files_to_pbxproj, diskAfter, h1]⟩
  · exact ⟨⟨Err.modelsGroup, by simp [add_files_to_pbxproj, h1, h2]⟩,
      by simp [add_files_to_pbxproj, diskAfter, h1, h2]⟩
  · exact ⟨⟨Err.sourcesPhase, by simp [add_files_to_pbxproj, h1, h2, h3]⟩,
      by simp [add_files_to_pbxproj, diskAfter, h1, h2, h3]⟩
  · exact ⟨⟨Err.buildFileSection, by simp [add_files_to_pbxproj, h1, h2, h3, h4]⟩,
      by simp [add_files_to_pbxproj, diskAfter, h1, h2, h3, h4]⟩

lemma add_files_ok_steps (content : Str) (files toks : List Str) (out : Str)
    (h : add_files_to_pbxproj content files toks = Except.ok out) :
    ∃ c1 c2 c3, step1 content files toks = some c1 ∧ step2 c1 files toks = some c2 ∧
      step3 c2 files toks = some c3 ∧ step4 c3 files toks = some out := by
  unfold add_files_to_pbxproj at h
  cases e1 : step1 content files toks with
  | none => simp only [e1] at h; exact absurd h (by simp)
  | some c1 =>
    simp only [e1] at h
    cases e2 : step2 c1 files toks with
    | none => simp only [e2] at h; exact absurd h (by simp)
    | some c2 =>
      simp only [e2] at h
      cases e3 : step3 c2 files toks with
      | none => simp only [e3] at h; exact absurd h (by simp)
      | some c3 =>
        simp only [e3] at h
        cases e4 : step4 c3 files toks with
        | none => simp only [e4] at h; exact absurd h (by simp)
        | some c4 =>
          simp only [e4, Except.ok.injEq] at h
          subst h
          exact ⟨c1, c2, c3, rfl, e2, e3, e4⟩

lemma add_files_total (content : Str) (files toks : List Str) :
    locFails content files toks ∨
      ∃ s, add_files_to_pbxproj content files toks = Except.ok s := by
  cases e1 : step1 content files toks with
  | none => exact Or.inl (Or.inl e1)
  | some c1 =>
    cases e2 : step2 c1 files toks with
    | none => exact Or.inl (Or.inr (Or.inl ⟨c1, e1, e2⟩))
    | some c2 =>
      cases e3 : step3 c2 files toks with
      | none => exact Or.inl (Or.inr (Or.inr (Or.inl ⟨c1, c2, e1, e2, e3⟩)))
      | some c3 =>
        cases e4 : step4 c3 files toks with
        | none => exact Or.inl (Or.inr (Or.inr (Or.inr ⟨c1, c2, c3, e1, e2, e3, e4⟩)))
        | some c4 =>
          refine Or.inr ⟨c4, ?_⟩
          simp [add_files_to_pbxproj, e1, e2, e3, e4]

/-- Claim C2: if any of the four locate steps fails, `add_files_to_pbxproj`
returns failure and the file on disk is unchanged (no write happens), and a
successful return requires all four locate-and-insert steps to have
succeeded, the write being of the final in-memory text. -/
theorem claim_C2 :
    (∀ content files toks, locFails content files toks →
      (∃ e, add_files_to_pbxproj content files toks = Except.error e) ∧
      diskAfter content (add_files_to_pbxproj content files toks) = content)
    ∧ (∀ content files toks out,
      add_files_to_pbxproj content files toks = Except.ok out →
      ∃ c1 c2 c3, step1 content files toks = some c1 ∧ step2 c1 files toks = some c2 ∧
        step3 c2 files toks = some c3 ∧ step4 c3 files toks = some out) :=
  ⟨add_files_error_of_locFails, add_files_ok_steps⟩

theorem claim_C2_witness :
    (∃ e, add_files_to_pbxproj [] [] [] = Except.error e) ∧
    diskAfter [] (add_files_to_pbxproj [] [] []) = [] :=
  claim_C2.1 [] [] [] (Or.inl (by decide))

/-- Claim C5: the `__main__` block exits with status 0 exactly on full
success (the patched text is written), and with status 1 when any of the
four region lookups fails, in which case nothing is written; one of the two
outcomes always holds. -/
theorem claim_C5 :
    (∀ content toks s, add_files_to_pbxproj content mainFiles toks = Except.ok s →
      runMain content toks = (some s, 0))
    ∧ (∀ content toks, locFails content mainFiles toks →
      runMain content toks = (none, 1))
    ∧ (∀ content toks, locFails content mainFiles toks ∨
      ∃ s, add_files_to_pbxproj content mainFiles toks = Except.ok s) := by
  refine ⟨?_, ?_, fun content toks => add_files_total content mainFiles toks⟩
  · intro content toks s h
    simp [runMain, h]
  · intro content toks h
    obtain ⟨⟨e, he⟩, -⟩ := add_files_error_of_locFails content mainFiles toks h
    simp [runMain, he]

theorem claim_C5_witness : runMain [] [] = (none, 1) :=
  claim_C5.2.1 [] [] (Or.inl (by decide))

lemma ne_to_beq_false {c d : Char} (h : c ≠ d) : (c == d) = false :=
  beq_eq_false_iff_ne.mpr h

lemma nthC_mem (l : Str) (r : Nat) (h : r < l.length) :
    ∃ c, nthC l r = some c ∧ c ∈ l := by
  induction l generalizing r with
  | nil => simp at h
  | cons c t ih =>
    cases r with
    | zero => exact ⟨c, rfl, by simp⟩
    | succ r =>
      obtain ⟨d, hd1, hd2⟩ := ih r (by simpa using h)
      exact ⟨d, hd1, by simp [hd2]⟩

lemma occB_iff (n h : Str) (k : Nat) : occB n h k = true ↔ occAt n h k := by
  unfold occB
  rw [occAt_iff]

lemma matchRecAt_spec (lbl fld X gid fill ch more Y : Str)
    (hgid : gid.length = 24) (hhex : ∀ c ∈ gid, hexUC c = true)
    (hfill : fill ≠ []) (hfillb : ∀ c ∈ fill, c ≠ '\x7d')
    (hclb : ∀ c ∈ chLit fld, c ≠ '\x7d')
    (hch : ch ≠ []) (hchbr : ∀ c ∈ ch, c ≠ '\x7d') (hchp : ∀ c ∈ ch, c ≠ ')')
    (hmore : ∀ c ∈ more, c ≠ '\x7d')
    (huniq : ∀ q, occAt (chLit fld) (fill ++ chLit fld ++ ch ++ [')', ';'] ++ more) q →
      q = fill.length) :
    matchRecAt lbl fld
      (X ++ gid ++ lit24 lbl ++ fill ++ chLit fld ++ ch ++ [')', ';'] ++ more ++ ['\x7d'] ++ Y)
      X.length
      = some (X.length + 24 + (lit24 lbl).length + fill.length + (chLit fld).length
        + ch.length) := by
  set NF := X ++ gid ++ lit24 lbl ++ fill ++ chLit fld ++ ch ++ [')', ';'] ++ more
    ++ ['\x7d'] ++ Y with hNF
  have hdX : NF.drop X.length
      = gid ++ (lit24 lbl ++ fill ++ chLit fld ++ ch ++ [')', ';'] ++ more ++ '\x7d' :: Y) := by
    have h1 : NF = X ++ (gid ++ (lit24 lbl ++ fill ++ chLit fld ++ ch ++ [')', ';'] ++ more
        ++ '\x7d' :: Y)) := by
      rw [hNF]; simp [List.append_assoc]
    rw [h1, dropApp]
  have hd24 : NF.drop (X.length + 24)
      = lit24 lbl ++ (fill ++ chLit fld ++ ch ++ [')', ';'] ++ more ++ '\x7d' :: Y) := by
    have h1 : NF = (X ++ gid) ++ (lit24 lbl ++ (fill ++ chLit fld ++ ch ++ [')', ';'] ++ more
        ++ '\x7d' :: Y)) := by
      rw [hNF]; simp [List.append_assoc]
    have h2 : X.length + 24 = (X ++ gid).length := by
      simp only [List.length_append, hgid]
    rw [h1, h2, dropApp]
  have hdp0 : NF.drop (X.length + 24 + (lit24 lbl).length)
      = fill ++ chLit fld ++ ch ++ [')', ';'] ++ more ++ '\x7d' :: Y := by
    have h1 : NF = (X ++ gid ++ lit24 lbl) ++ (fill ++ chLit fld ++ ch ++ [')', ';'] ++ more
        ++ '\x7d' :: Y) := by
      rw [hNF]; simp [List.append_assoc]
    have h2 : X.length + 24 + (lit24 lbl).length = (X ++ gid ++ lit24 lbl).length := by
      simp only [List.length_append, hgid]
    rw [h1, h2, dropApp]
  have hdk : NF.drop (X.length + 24 + (lit24 lbl).length + fill.length)
      = chLit fld ++ (ch ++ [')', ';'] ++ more ++ '\x7d' :: Y) := by
    have h1 : NF = (X ++ gid ++ lit24 lbl ++ fill) ++ (chLit fld ++ (ch ++ [')', ';'] ++ more
        ++ '\x7d' :: Y)) := by
      rw [hNF]; simp [List.append_assoc]
    have h2 : X.length + 24 + (lit24 lbl).length + fill.length
        = (X ++ gid ++ lit24 lbl ++ fill).length := by
      simp only [List.length_append, hgid]
    rw [h1, h2, dropApp]
  have hdq : NF.drop (X.length + 24 + (lit24 lbl).length + fill.length + (chLit fld).length)
      = ch ++ ')' :: ';' :: (more ++ '\x7d' :: Y) := by
    have h1 : NF = (X ++ gid ++ lit24 lbl ++ fill ++ chLit fld)
        ++ (ch ++ ')' :: ';' :: (more ++ '\x7d' :: Y)) := by
      rw [hNF]; simp [List.append_assoc]
    have h2 : X.length + 24 + (lit24 lbl).length + fill.length + (chLit fld).length
        = (X ++ gid ++ lit24 lbl ++ fill ++ chLit fld).length := by
      simp only [List.length_append, hgid]
    rw [h1, h2, dropApp]
  have hhx : hex24At NF X.length = true := by
    unfold hex24At
    rw [hdX]
    have h3 : (gid ++ (lit24 lbl ++ fill ++ chLit fld ++ ch ++ [')', ';'] ++ more
        ++ '\x7d' :: Y)).take 24 = gid := by
      rw [← hgid, takeApp]
    rw [h3]
    simp only [hgid, List.all_eq_true, Bool.and_eq_true, beq_iff_eq]
    exact ⟨trivial, hhex⟩
  have hocc1 : occB (lit24 lbl) NF (X.length + 24) = true := by
    unfold occB
    rw [hd24, pfxB_iff]
    exact ⟨_, rfl⟩
  have hrun : runEnd NF (X.length + 24 + (lit24 lbl).length)
      = X.length + 24 + (lit24 lbl).length
        + (fill.length + (chLit fld).length + ch.length + 2 + more.length) := by
    unfold runEnd
    have hre : fill ++ chLit fld ++ ch ++ [')', ';'] ++ more ++ '\x7d' :: Y
        = (fill ++ chLit fld ++ ch ++ [')', ';'] ++ more) ++ '\x7d' :: Y := by
      simp [List.append_assoc]
    have hall : ∀ x ∈ fill ++ chLit fld ++ ch ++ [')', ';'] ++ more,
        (x == '\x7d') = false := by
      intro x hx
      simp only [List.mem_append, List.mem_cons, List.not_mem_nil, or_false] at hx
      rcases hx with ⟨⟨⟨hx | hx⟩ | hx⟩ | hx | hx⟩ | hx
      · exact ne_to_beq_false (hfillb x hx)
      · exact ne_to_beq_false (hclb x hx)
      · exact ne_to_beq_false (hchbr x hx)
      · subst hx; decide
      · subst hx; decide
      · exact ne_to_beq_false (hmore x hx)
    rw [hdp0, hre, firstP_append _ _ _ _ hall (by decide)]
    simp only [List.length_append, List.length_cons, List.length_nil]
  have hlo : X.length + 24 + (lit24 lbl).length + 1
      ≤ X.length + 24 + (lit24 lbl).length + fill.length := by
    have : 0 < fill.length := List.length_pos.mpr hfill
    omega
  have hv : tryK (chLit fld) NF (X.length + 24 + (lit24 lbl).length + fill.length)
      = some (X.length + 24 + (lit24 lbl).length + fill.length + (chLit fld).length
        + ch.length) := by
    unfold tryK
    have hoccb : occB (chLit fld) NF
        (X.length + 24 + (lit24 lbl).length + fill.length) = true := by
      unfold occB
      rw [hdk, pfxB_iff]
      exact ⟨_, rfl⟩
    rw [hoccb]
    simp only [if_true]
    unfold qCheck
    rw [hdq]
    have hallp : ∀ x ∈ ch, (x == ')') = false := fun x hx => ne_to_beq_false (hchp x hx)
    have hne0 : ¬ (ch.length = 0) := by
      have : 0 < ch.length := List.length_pos.mpr hch
      omega
    have hsemi : nthC NF (X.length + 24 + (lit24 lbl).length + fill.length
        + (chLit fld).length + ch.length + 1) = some ';' := by
      have h1 : NF = (X ++ gid ++ lit24 lbl ++ fill ++ chLit fld ++ ch ++ [')'])
          ++ ';' :: (more ++ '\x7d' :: Y) := by
        rw [hNF]; simp [List.append_assoc]
      have h2 : X.length + 24 + (lit24 lbl).length + fill.length + (chLit fld).length
          + ch.length + 1
          = (X ++ gid ++ lit24 lbl ++ fill ++ chLit fld ++ ch ++ [')']).length + 0 := by
        simp only [List.length_append, hgid, List.length_cons, List.length_nil]
      rw [h2, h1, nthC_append]
      rfl
    rw [firstP_append _ _ _ _ hallp (by decide)]
    simp [hne0, hsemi]
  have hnone : ∀ j, X.length + 24 + (lit24 lbl).length + fill.length < j →
      j ≤ X.length + 24 + (lit24 lbl).length
        + (fill.length + (chLit fld).length + ch.length + 2 + more.length) →
      tryK (chLit fld) NF j = none := by
    intro j hj1 hj2
    by_cases hb : occB (chLit fld) NF j = true
    · exfalso
      have hocc : occAt (chLit fld) NF j := (occB_iff _ _ _).mp hb
      have hXl : (X ++ gid ++ lit24 lbl).length = X.length + 24 + (lit24 lbl).length := by
        simp only [List.length_append, hgid]
      have hRl : (fill ++ chLit fld ++ ch ++ [')', ';'] ++ more).length
          = fill.length + (chLit fld).length + ch.length + 2 + more.length := by
        simp only [List.length_append, List.length_cons, List.length_nil]
      have hjM : j + (chLit fld).length ≤ X.length + 24 + (lit24 lbl).length
          + (fill.length + (chLit fld).length + ch.length + 2 + more.length) := by
        by_contra hcon
        push_neg at hcon
        have hr : (X.length + 24 + (lit24 lbl).length
            + (fill.length + (chLit fld).length + ch.length + 2 + more.length)) - j
            < (chLit fld).length := by omega
        have h1 := occAt_nthC (chLit fld) NF j _ hr hocc
        have hMj : j + ((X.length + 24 + (lit24 lbl).length
            + (fill.length + (chLit fld).length + ch.length + 2 + more.length)) - j)
            = X.length + 24 + (lit24 lbl).length
              + (fill.length + (chLit fld).length + ch.length + 2 + more.length) := by
          omega
        rw [hMj] at h1
        have hM : nthC NF (X.length + 24 + (lit24 lbl).length
            + (fill.length + (chLit fld).length + ch.length + 2 + more.length))
            = some '\x7d' := by
          have hsh : NF = (X ++ gid ++ lit24 lbl ++ fill ++ chLit fld ++ ch ++ [')', ';']
              ++ more) ++ '\x7d' :: Y := by
            rw [hNF]; simp [List.append_assoc]
          have hlen : X.length + 24 + (lit24 lbl).length
              + (fill.length + (chLit fld).length + ch.length + 2 + more.length)
              = (X ++ gid ++ lit24 lbl ++ fill ++ chLit fld ++ ch ++ [')', ';']
                ++ more).length + 0 := by
            simp only [List.length_append, hgid, List.length_cons, List.length_nil]
            omega
          rw [hlen, hsh, nthC_append]
          rfl
        rw [hM] at h1
        obtain ⟨c, hc1, hc2⟩ := nthC_mem (chLit fld) _ hr
        rw [hc1] at h1
        have : c = '\x7d' := by injection h1 with h1'; exact h1'.symm
        exact hclb c hc2 this
      have hsh : NF = (X ++ gid ++ lit24 lbl)
          ++ (fill ++ chLit fld ++ ch ++ [')', ';'] ++ more) ++ '\x7d' :: Y := by
        rw [hNF]; simp [List.append_assoc]
      rw [hsh] at hocc
      have hw := occAt_within (chLit fld) (X ++ gid ++ lit24 lbl)
        (fill ++ chLit fld ++ ch ++ [')', ';'] ++ more) ('\x7d' :: Y) j
        (by omega) (by rw [hXl, hRl]; omega) hocc
      have := huniq _ hw
      rw [hXl] at this
      omega
    · unfold tryK
      rw [Bool.not_eq_true] at hb
      rw [hb]
      simp
  have hfin : matchRecAt lbl fld NF X.length
      = scanDown (tryK (chLit fld) NF) (X.length + 24 + (lit24 lbl).length + 1)
        (runEnd NF (X.length + 24 + (lit24 lbl).length)) := by
    unfold matchRecAt
    rw [hhx, hocc1]
    simp
  rw [hfin, hrun]
  exact scanDown_spec _ _ _ _ _ (by omega) (by omega) hnone hv

lemma matchRecAt_none (lbl fld h : Str) (i : Nat)
    (hno : ¬ occAt (lit24 lbl) h (i + 24)) : matchRecAt lbl fld h i = none := by
  unfold matchRecAt
  have hb : occB (lit24 lbl) h (i + 24) = false := by
    rw [← Bool.not_eq_true, occB_iff]
    exact hno
  rw [hb]
  simp

lemma searchRec_spec (lbl fld X gid fill ch more Y : Str)
    (hgid : gid.length = 24) (hhex : ∀ c ∈ gid, hexUC c = true)
    (hfill : fill ≠ []) (hfillb : ∀ c ∈ fill, c ≠ '\x7d')
    (hclb : ∀ c ∈ chLit fld, c ≠ '\x7d')
    (hch : ch ≠ []) (hchbr : ∀ c ∈ ch, c ≠ '\x7d') (hchp : ∀ c ∈ ch, c ≠ ')')
    (hmore : ∀ c ∈ more, c ≠ '\x7d')
    (huniq : ∀ q, occAt (chLit fld) (fill ++ chLit fld ++ ch ++ [')', ';'] ++ more) q →
      q = fill.length)
    (hpre : noPre (lit24 lbl) (X ++ gid)) :
    searchRec lbl fld
      (X ++ gid ++ lit24 lbl ++ fill ++ chLit fld ++ ch ++ [')', ';'] ++ more ++ ['\x7d'] ++ Y)
      = some (X.length + 24 + (lit24 lbl).length + fill.length + (chLit fld).length
        + ch.length) := by
  unfold searchRec
  apply scanUp_spec _ _ 0 X.length _ (by omega)
  · simp only [List.length_append]
    omega
  · intro j hj0 hj
    apply matchRecAt_none
    intro hocc
    have hsh : X ++ gid ++ lit24 lbl ++ fill ++ chLit fld ++ ch ++ [')', ';'] ++ more
        ++ ['\x7d'] ++ Y
        = (X ++ gid) ++ lit24 lbl
          ++ (fill ++ chLit fld ++ ch ++ [')', ';'] ++ more ++ ['\x7d'] ++ Y) := by
      simp [List.append_assoc]
    rw [hsh] at hocc
    exact noPre_no_occ (lit24 lbl) (X ++ gid) _ hpre (j + 24)
      (by simp only [List.length_append, hgid]; omega) hocc
  · exact matchRecAt_spec lbl fld X gid fill ch more Y hgid hhex hfill hfillb hclb
      hch hchbr hchp hmore huniq

lemma searchRec_insert (lbl fld X gid fill ch more Y blk : Str)
    (hgid : gid.length = 24) (hhex : ∀ c ∈ gid, hexUC c = true)
    (hfill : fill ≠ []) (hfillb : ∀ c ∈ fill, c ≠ '\x7d')
    (hclb : ∀ c ∈ chLit fld, c ≠ '\x7d')
    (hch : ch ≠ []) (hchbr : ∀ c ∈ ch, c ≠ '\x7d') (hchp : ∀ c ∈ ch, c ≠ ')')
    (hmore : ∀ c ∈ more, c ≠ '\x7d')
    (huniq : ∀ q, occAt (chLit fld) (fill ++ chLit fld ++ ch ++ [')', ';'] ++ more) q →
      q = fill.length)
    (hpre : noPre (lit24 lbl) (X ++ gid)) :
    (searchRec lbl fld
      (X ++ gid ++ lit24 lbl ++ fill ++ chLit fld ++ ch ++ [')', ';'] ++ more ++ ['\x7d'] ++ Y)).map
      (fun e => splice
        (X ++ gid ++ lit24 lbl ++ fill ++ chLit fld ++ ch ++ [')', ';'] ++ more ++ ['\x7d'] ++ Y)
        e blk)
      = some (X ++ gid ++ lit24 lbl ++ fill ++ chLit fld ++ ch ++ blk ++ [')', ';'] ++ more
        ++ ['\x7d'] ++ Y) := by
  rw [searchRec_spec lbl fld X gid fill ch more Y hgid hhex hfill hfillb hclb hch hchbr
    hchp hmore huniq hpre]
  simp only [Option.map_some']
  congr 1
  have hsh : X ++ gid ++ lit24 lbl ++ fill ++ chLit fld ++ ch ++ [')', ';'] ++ more
      ++ ['\x7d'] ++ Y
      = (X ++ gid ++ lit24 lbl ++ fill ++ chLit fld ++ ch)
        ++ ([')', ';'] ++ more ++ ['\x7d'] ++ Y) := by
    simp [List.append_assoc]
  have hlen : X.length + 24 + (lit24 lbl).length + fill.length + (chLit fld).length
      + ch.length = (X ++ gid ++ lit24 lbl ++ fill ++ chLit fld ++ ch).length := by
    simp only [List.length_append, hgid]
  rw [hsh, hlen, splice_at]
  simp [List.append_assoc]

lemma findSection_insert (bm em a m0 rest blk : Str) (mc : Char)
    (hpb : noPre bm a) (hpe : noPre em (m0 ++ [mc])) :
    (findSection bm em (a ++ bm ++ m0 ++ [mc] ++ em ++ rest)).map
      (fun e => splice (a ++ bm ++ m0 ++ [mc] ++ em ++ rest) (e - (em.length + 1)) blk)
      = some (a ++ bm ++ m0 ++ blk ++ [mc] ++ em ++ rest) := by
  have hsh : a ++ bm ++ m0 ++ [mc] ++ em ++ rest = a ++ bm ++ (m0 ++ [mc]) ++ em ++ rest := by
    simp [List.append_assoc]
  rw [hsh, findSection_spec bm em a (m0 ++ [mc]) rest hpb hpe]
  simp only [Option.map_some']
  congr 1
  have hpos : a.length + bm.length + (m0 ++ [mc]).length + em.length - (em.length + 1)
      = (a ++ bm ++ m0).length := by
    simp only [List.length_append, List.length_cons, List.length_nil]
    omega
  have hsh2 : a ++ bm ++ (m0 ++ [mc]) ++ em ++ rest
      = (a ++ bm ++ m0) ++ ([mc] ++ em ++ rest) := by
    simp [List.append_assoc]
  rw [hpos, hsh2, splice_at]
  simp [List.append_assoc]

lemma step1_spec (pre m0 rest : Str) (mc : Char) (files toks : List Str)
    (h1 : noPre bFR pre) (h2 : noPre eFR (m0 ++ [mc])) :
    step1 (pre ++ bFR ++ m0 ++ [mc] ++ eFR ++ rest) files toks
      = some (pre ++ bFR ++ m0 ++ joinL (refFrags files toks) ++ [mc] ++ eFR ++ rest) := by
  unfold step1
  exact findSection_insert bFR eFR pre m0 rest _ mc h1 h2

lemma step4_spec (pre m0 rest : Str) (mc : Char) (files toks : List Str)
    (h1 : noPre bBF pre) (h2 : noPre eBF (m0 ++ [mc])) :
    step4 (pre ++ bBF ++ m0 ++ [mc] ++ eBF ++ rest) files toks
      = some (pre ++ bBF ++ m0 ++ joinL (declFrags files toks) ++ [mc] ++ eBF ++ rest) := by
  unfold step4
  exact findSection_insert bBF eBF pre m0 rest _ mc h1 h2

lemma step2_spec (X gid fill ch more Y : Str) (files toks : List Str)
    (hgid : gid.length = 24) (hhex : ∀ c ∈ gid, hexUC c = true)
    (hfill : fill ≠ []) (hfillb : ∀ c ∈ fill, c ≠ '\x7d')
    (hch : ch ≠ []) (hchbr : ∀ c ∈ ch, c ≠ '\x7d') (hchp : ∀ c ∈ ch, c ≠ ')')
    (hmore : ∀ c ∈ more, c ≠ '\x7d')
    (huniq : ∀ q, occAt (chLit (strL "children"))
      (fill ++ chLit (strL "children") ++ ch ++ [')', ';'] ++ more) q → q = fill.length)
    (hpre : noPre (lit24 (strL "Models")) (X ++ gid)) :
    step2 (X ++ gid ++ lit24 (strL "Models") ++ fill ++ chLit (strL "children") ++ ch
        ++ [')', ';'] ++ more ++ ['\x7d'] ++ Y) files toks
      = some (X ++ gid ++ lit24 (strL "Models") ++ fill ++ chLit (strL "children") ++ ch
        ++ joinL (childFrags files toks) ++ [')', ';'] ++ more ++ ['\x7d'] ++ Y) := by
  unfold step2
  exact searchRec_insert (strL "Models") (strL "children") X gid fill ch more Y _
    hgid hhex hfill hfillb (by decide) hch hchbr hchp hmore huniq hpre

lemma step3_spec (X gid fill ch more Y : Str) (files toks : List Str)
    (hgid : gid.length = 24) (hhex : ∀ c ∈ gid, hexUC c = true)
    (hfill : fill ≠ []) (hfillb : ∀ c ∈ fill, c ≠ '\x7d')
    (hch : ch ≠ []) (hchbr : ∀ c ∈ ch, c ≠ '\x7d') (hchp : ∀ c ∈ ch, c ≠ ')')
    (hmore : ∀ c ∈ more, c ≠ '\x7d')
    (huniq : ∀ q, occAt (chLit (strL "files"))
      (fill ++ chLit (strL "files") ++ ch ++ [')', ';'] ++ more) q → q = fill.length)
    (hpre : noPre (lit24 (strL "Sources")) (X ++ gid)) :
    step3 (X ++ gid ++ lit24 (strL "Sources") ++ fill ++ chLit (strL "files") ++ ch
        ++ [')', ';'] ++ more ++ ['\x7d'] ++ Y) files toks
      = some (X ++ gid ++ lit24 (strL "Sources") ++ fill ++ chLit (strL "files") ++ ch
        ++ joinL (phaseFrags files toks) ++ [')', ';'] ++ more ++ ['\x7d'] ++ Y) := by
  unfold step3
  exact searchRec_insert (strL "Sources") (strL "files") X gid fill ch more Y _
    hgid hhex hfill hfillb (by decide) hch hchbr hchp hmore huniq hpre

/-- A well-formed project descriptor, by parts: arbitrary text `pre`,
the PBXFileReference section with body `rb0 ++ [rbc]`, filler `mid1`, a
`Models` group record, filler `mid2`, a `Sources` build-phase record, filler
`mid3`, the PBXBuildFile section with body `bb0 ++ [bbc]`, and trailing text
`post`; together with the run's filename list and generated tokens. -/
structure Desc where
  pre : Str
  rb0 : Str
  rbc : Char
  mid1 : Str
  gid : Str
  gFill : Str
  gCh : Str
  gMore : Str
  mid2 : Str
  sid : Str
  sFill : Str
  sFls : Str
  sMore : Str
  mid3 : Str
  bb0 : Str
  bbc : Char
  post : Str
  files : List Str
  toks : List Str

/-- The descriptor text assembled from the parts. -/
def Desc.text (D : Desc) : Str :=
  D.pre ++ bFR ++ D.rb0 ++ [D.rbc] ++ eFR ++ D.mid1
    ++ D.gid ++ lit24 (strL "Models") ++ D.gFill ++ chLit (strL "children") ++ D.gCh
    ++ [')', ';'] ++ D.gMore ++ ['\x7d'] ++ D.mid2
    ++ D.sid ++ lit24 (strL "Sources") ++ D.sFill ++ chLit (strL "files") ++ D.sFls
    ++ [')', ';'] ++ D.sMore ++ ['\x7d'] ++ D.mid3
    ++ bBF ++ D.bb0 ++ [D.bbc] ++ eBF ++ D.post

/-- Text preceding the Models record id in the step-2 search text (i.e. in
the descriptor after the step-1 insertion), together with the id. -/
def pfx2 (D : Desc) : Str :=
  D.pre ++ bFR ++ D.rb0 ++ joinL (refFrags D.files D.toks) ++ [D.rbc] ++ eFR ++ D.mid1
    ++ D.gid

/-- Text preceding the Sources record id in the step-3 search text, together
with the id. -/
def pfx3 (D : Desc) : Str :=
  D.pre ++ bFR ++ D.rb0 ++ joinL (refFrags D.files D.toks) ++ [D.rbc] ++ eFR ++ D.mid1
    ++ D.gid ++ lit24 (strL "Models") ++ D.gFill ++ chLit (strL "children") ++ D.gCh
    ++ joinL (childFrags D.files D.toks) ++ [')', ';'] ++ D.gMore ++ ['\x7d'] ++ D.mid2
    ++ D.sid

/-- Text preceding the PBXBuildFile begin marker in the step-4 search text. -/
def pfx4 (D : Desc) : Str :=
  D.pre ++ bFR ++ D.rb0 ++ joinL (refFrags D.files D.toks) ++ [D.rbc] ++ eFR ++ D.mid1
    ++ D.gid ++ lit24 (strL "Models") ++ D.gFill ++ chLit (strL "children") ++ D.gCh
    ++ joinL (childFrags D.files D.toks) ++ [')', ';'] ++ D.gMore ++ ['\x7d'] ++ D.mid2
    ++ D.sid ++ lit24 (strL "Sources") ++ D.sFill ++ chLit (strL "files") ++ D.sFls
    ++ joinL (phaseFrags D.files D.toks) ++ [')', ';'] ++ D.sMore ++ ['\x7d'] ++ D.mid3

/-- Well-formedness: the scaffolding markers and labelled records are present
exactly where the parts put them, and nothing (surrounding text, record
bodies, or the freshly rendered fragments) fakes an earlier occurrence of
any pattern the four searches look for. -/
def wf (D : Desc) : Prop :=
  D.gid.length = 24 ∧ (∀ c ∈ D.gid, hexUC c = true)
  ∧ D.sid.length = 24 ∧ (∀ c ∈ D.sid, hexUC c = true)
  ∧ D.gFill ≠ [] ∧ (∀ c ∈ D.gFill, c ≠ '\x7d')
  ∧ D.gCh ≠ [] ∧ (∀ c ∈ D.gCh, c ≠ '\x7d') ∧ (∀ c ∈ D.gCh, c ≠ ')')
  ∧ (∀ c ∈ D.gMore, c ≠ '\x7d')
  ∧ (∀ q < (D.gFill ++ chLit (strL "children") ++ D.gCh ++ [')', ';'] ++ D.gMore).length,
      occAt (chLit (strL "children"))
        (D.gFill ++ chLit (strL "children") ++ D.gCh ++ [')', ';'] ++ D.gMore) q →
      q = D.gFill.length)
  ∧ D.sFill ≠ [] ∧ (∀ c ∈ D.sFill, c ≠ '\x7d')
  ∧ D.sFls ≠ [] ∧ (∀ c ∈ D.sFls, c ≠ '\x7d') ∧ (∀ c ∈ D.sFls, c ≠ ')')
  ∧ (∀ c ∈ D.sMore, c ≠ '\x7d')
  ∧ (∀ q < (D.sFill ++ chLit (strL "files") ++ D.sFls ++ [')', ';'] ++ D.sMore).length,
      occAt (chLit (strL "files"))
        (D.sFill ++ chLit (strL "files") ++ D.sFls ++ [')', ';'] ++ D.sMore) q →
      q = D.sFill.length)
  ∧ noPre bFR D.pre
  ∧ noPre eFR (D.rb0 ++ [D.rbc])
  ∧ noPre (lit24 (strL "Models")) (pfx2 D)
  ∧ noPre (lit24 (strL "Sources")) (pfx3 D)
  ∧ noPre bBF (pfx4 D)
  ∧ noPre eBF (D.bb0 ++ [D.bbc])

instance wf_dec (D : Desc) : Decidable (wf D) := by
  unfold wf
  infer_instance

/-- The patched descriptor text: each of the four regions received its block
of rendered fragments, everything else is unchanged. -/
def outText (D : Desc) : Str :=
  D.pre ++ bFR ++ D.rb0 ++ joinL (refFrags D.files D.toks) ++ [D.rbc] ++ eFR ++ D.mid1
    ++ D.gid ++ lit24 (strL "Models") ++ D.gFill ++ chLit (strL "children") ++ D.gCh
    ++ joinL (childFrags D.files D.toks) ++ [')', ';'] ++ D.gMore ++ ['\x7d'] ++ D.mid2
    ++ D.sid ++ lit24 (strL "Sources") ++ D.sFill ++ chLit (strL "files") ++ D.sFls
    ++ joinL (phaseFrags D.files D.toks) ++ [')', ';'] ++ D.sMore ++ ['\x7d'] ++ D.mid3
    ++ bBF ++ D.bb0 ++ joinL (declFrags D.files D.toks) ++ [D.bbc] ++ eBF ++ D.post

/-- Pipeline master lemma: on a well-formed descriptor the four locate
steps each find their intended region and the run succeeds, producing the
text with the four fragment blocks spliced in and nothing else changed. -/
lemma add_files_desc (D : Desc) (h : wf D) :
    add_files_to_pbxproj D.text D.files D.toks = Except.ok (outText D) := by
  obtain ⟨hg24, hghex, hs24, hshex, hgf, hgfb, hgch, hgchb, hgchp, hgm, hgu,
    hsf, hsfb, hsfl, hsflb, hsflp, hsm, hsu, hq1, hq2, hq3, hq4, hq5, hq6⟩ := h
  have huG : ∀ q, occAt (chLit (strL "children"))
      (D.gFill ++ chLit (strL "children") ++ D.gCh ++ [')', ';'] ++ D.gMore) q →
      q = D.gFill.length := by
    intro q hq
    have hlen := occAt_len _ _ q (by decide) hq
    have hpos : 0 < (chLit (strL "children")).length := by decide
    exact hgu q (by omega) hq
  have huS : ∀ q, occAt (chLit (strL "files"))
      (D.sFill ++ chLit (strL "files") ++ D.sFls ++ [')', ';'] ++ D.sMore) q →
      q = D.sFill.length := by
    intro q hq
    have hlen := occAt_len _ _ q (by decide) hq
    have hpos : 0 < (chLit (strL "files")).length := by decide
    exact hsu q (by omega) hq
  have hst1 : step1 D.text D.files D.toks
      = some (D.pre ++ bFR ++ D.rb0 ++ joinL (refFrags D.files D.toks) ++ [D.rbc] ++ eFR ++ (D.mid1 ++ D.gid ++ lit24 (strL "Models") ++ D.gFill ++ chLit (strL "children") ++ D.gCh ++ [')', ';'] ++ D.gMore ++ ['\x7d'] ++ D.mid2 ++ D.sid ++ lit24 (strL "Sources") ++ D.sFill ++ chLit (strL "files") ++ D.sFls ++ [')', ';'] ++ D.sMore ++ ['\x7d'] ++ D.mid3 ++ bBF ++ D.bb0 ++ [D.bbc] ++ eBF ++ D.post)) := by
    have e0 : D.text = D.pre ++ bFR ++ D.rb0 ++ [D.rbc] ++ eFR ++ (D.mid1 ++ D.gid ++ lit24 (strL "Models") ++ D.gFill ++ chLit (strL "children") ++ D.gCh ++ [')', ';'] ++ D.gMore ++ ['\x7d'] ++ D.mid2 ++ D.sid ++ lit24 (strL "Sources") ++ D.sFill ++ chLit (strL "files") ++ D.sFls ++ [')', ';'] ++ D.sMore ++ ['\x7d'] ++ D.mid3 ++ bBF ++ D.bb0 ++ [D.bbc] ++ eBF ++ D.post) := by
      unfold Desc.text
      simp [List.append_assoc]
    rw [e0]
    exact step1_spec D.pre D.rb0 (D.mid1 ++ D.gid ++ lit24 (strL "Models") ++ D.gFill ++ chLit (strL "children") ++ D.gCh ++ [')', ';'] ++ D.gMore ++ ['\x7d'] ++ D.mid2 ++ D.sid ++ lit24 (strL "Sources") ++ D.sFill ++ chLit (strL "files") ++ D.sFls ++ [')', ';'] ++ D.sMore ++ ['\x7d'] ++ D.mid3 ++ bBF ++ D.bb0 ++ [D.bbc] ++ eBF ++ D.post) D.rbc D.files D.toks hq1 hq2
  have hst2 : step2 (D.pre ++ bFR ++ D.rb0 ++ joinL (refFrags D.files D.toks) ++ [D.rbc] ++ eFR ++ (D.mid1 ++ D.gid ++ lit24 (strL "Models") ++ D.gFill ++ chLit (strL "children") ++ D.gCh ++ [')', ';'] ++ D.gMore ++ ['\x7d'] ++ D.mid2 ++ D.sid ++ lit24 (strL "Sources") ++ D.sFill ++ chLit (strL "files") ++ D.sFls ++ [')', ';'] ++ D.sMore ++ ['\x7d'] ++ D.mid3 ++ bBF ++ D.bb0 ++ [D.bbc] ++ eBF ++ D.post)) D.files D.toks
      = some ((D.pre ++ bFR ++ D.rb0 ++ joinL (refFrags D.files D.toks) ++ [D.rbc] ++ eFR ++ D.mid1) ++ D.gid ++ lit24 (strL "Models") ++ D.gFill ++ chLit (strL "children") ++ D.gCh ++ joinL (childFrags D.files D.toks) ++ [')', ';'] ++ D.gMore ++ ['\x7d'] ++ (D.mid2 ++ D.sid ++ lit24 (strL "Sources") ++ D.sFill ++ chLit (strL "files") ++ D.sFls ++ [')', ';'] ++ D.sMore ++ ['\x7d'] ++ D.mid3 ++ bBF ++ D.bb0 ++ [D.bbc] ++ eBF ++ D.post)) := by
    have e1 : D.pre ++ bFR ++ D.rb0 ++ joinL (refFrags D.files D.toks) ++ [D.rbc] ++ eFR ++ (D.mid1 ++ D.gid ++ lit24 (strL "Models") ++ D.gFill ++ chLit (strL "children") ++ D.gCh ++ [')', ';'] ++ D.gMore ++ ['\x7d'] ++ D.mid2 ++ D.sid ++ lit24 (strL "Sources") ++ D.sFill ++ chLit (strL "files") ++ D.sFls ++ [')', ';'] ++ D.sMore ++ ['\x7d'] ++ D.mid3 ++ bBF ++ D.bb0 ++ [D.bbc] ++ eBF ++ D.post)
        = (D.pre ++ bFR ++ D.rb0 ++ joinL (refFrags D.files D.toks) ++ [D.rbc] ++ eFR ++ D.mid1) ++ D.gid ++ lit24 (strL "Models") ++ D.gFill ++ chLit (strL "children") ++ D.gCh ++ [')', ';'] ++ D.gMore ++ ['\x7d'] ++ (D.mid2 ++ D.sid ++ lit24 (strL "Sources") ++ D.sFill ++ chLit (strL "files") ++ D.sFls ++ [')', ';'] ++ D.sMore ++ ['\x7d'] ++ D.mid3 ++ bBF ++ D.bb0 ++ [D.bbc] ++ eBF ++ D.post) := by
      simp [List.append_assoc]
    rw [e1]
    exact step2_spec (D.pre ++ bFR ++ D.rb0 ++ joinL (refFrags D.files D.toks) ++ [D.rbc] ++ eFR ++ D.mid1) D.gid D.gFill D.gCh D.gMore (D.mid2 ++ D.sid ++ lit24 (strL "Sources") ++ D.sFill ++ chLit (strL "files") ++ D.sFls ++ [')', ';'] ++ D.sMore ++ ['\x7d'] ++ D.mid3 ++ bBF ++ D.bb0 ++ [D.bbc] ++ eBF ++ D.post) D.files D.toks
      hg24 hghex hgf hgfb hgch hgchb hgchp hgm huG hq3
  have hst3 : step3 ((D.pre ++ bFR ++ D.rb0 ++ joinL (refFrags D.files D.toks) ++ [D.rbc] ++ eFR ++ D.mid1) ++ D.gid ++ lit24 (strL "Models") ++ D.gFill ++ chLit (strL "children") ++ D.gCh ++ joinL (childFrags D.files D.toks) ++ [')', ';'] ++ D.gMore ++ ['\x7d'] ++ (D.mid2 ++ D.sid ++ lit24 (strL "Sources") ++ D.sFill ++ chLit (strL "files") ++ D.sFls ++ [')', ';'] ++ D.sMore ++ ['\x7d'] ++ D.mid3 ++ bBF ++ D.bb0 ++ [D.bbc] ++ eBF ++ D.post)) D.files D.toks
      = some ((D.pre ++ bFR ++ D.rb0 ++ joinL (refFrags D.files D.toks) ++ [D.rbc] ++ eFR ++ D.mid1 ++ D.gid ++ lit24 (strL "Models") ++ D.gFill ++ chLit (strL "children") ++ D.gCh ++ joinL (childFrags D.files D.toks) ++ [')', ';'] ++ D.gMore ++ ['\x7d'] ++ D.mid2) ++ D.sid ++ lit24 (strL "Sources") ++ D.sFill ++ chLit (strL "files") ++ D.sFls ++ joinL (phaseFrags D.files D.toks) ++ [')', ';'] ++ D.sMore ++ ['\x7d'] ++ (D.mid3 ++ bBF ++ D.bb0 ++ [D.bbc] ++ eBF ++ D.post)) := by
    have e2 : (D.pre ++ bFR ++ D.rb0 ++ joinL (refFrags D.files D.toks) ++ [D.rbc] ++ eFR ++ D.mid1) ++ D.gid ++ lit24 (strL "Models") ++ D.gFill ++ chLit (strL "children") ++ D.gCh ++ joinL (childFrags D.files D.toks) ++ [')', ';'] ++ D.gMore ++ ['\x7d'] ++ (D.mid2 ++ D.sid ++ lit24 (strL "Sources") ++ D.sFill ++ chLit (strL "files") ++ D.sFls ++ [')', ';'] ++ D.sMore ++ ['\x7d'] ++ D.mid3 ++ bBF ++ D.bb0 ++ [D.bbc] ++ eBF ++ D.post)
        = (D.pre ++ bFR ++ D.rb0 ++ joinL (refFrags D.files D.toks) ++ [D.rbc] ++ eFR ++ D.mid1 ++ D.gid ++ lit24 (strL "Models") ++ D.gFill ++ chLit (strL "children") ++ D.gCh ++ joinL (childFrags D.files D.toks) ++ [')', ';'] ++ D.gMore ++ ['\x7d'] ++ D.mid2) ++ D.sid ++ lit24 (strL "Sources") ++ D.sFill ++ chLit (strL "files") ++ D.sFls ++ [')', ';'] ++ D.sMore ++ ['\x7d'] ++ (D.mid3 ++ bBF ++ D.bb0 ++ [D.bbc] ++ eBF ++ D.post) := by
      simp [List.append_assoc]
    rw [e2]
    exact step3_spec (D.pre ++ bFR ++ D.rb0 ++ joinL (refFrags D.files D.toks) ++ [D.rbc] ++ eFR ++ D.mid1 ++ D.gid ++ lit24 (strL "Models") ++ D.gFill ++ chLit (strL "children") ++ D.gCh ++ joinL (childFrags D.files D.toks) ++ [')', ';'] ++ D.gMore ++ ['\x7d'] ++ D.mid2) D.sid D.sFill D.sFls D.sMore (D.mid3 ++ bBF ++ D.bb0 ++ [D.bbc] ++ eBF ++ D.post) D.files D.toks
      hs24 hshex hsf hsfb hsfl hsflb hsflp hsm huS hq4
  have hst4 : step4 ((D.pre ++ bFR ++ D.rb0 ++ joinL (refFrags D.files D.toks) ++ [D.rbc] ++ eFR ++ D.mid1 ++ D.gid ++ lit24 (strL "Models") ++ D.gFill ++ chLit (strL "children") ++ D.gCh ++ joinL (childFrags D.files D.toks) ++ [')', ';'] ++ D.gMore ++ ['\x7d'] ++ D.mid2) ++ D.sid ++ lit24 (strL "Sources") ++ D.sFill ++ chLit (strL "files") ++ D.sFls ++ joinL (phaseFrags D.files D.toks) ++ [')', ';'] ++ D.sMore ++ ['\x7d'] ++ (D.mid3 ++ bBF ++ D.bb0 ++ [D.bbc] ++ eBF ++ D.post)) D.files D.toks
      = some ((D.pre ++ bFR ++ D.rb0 ++ joinL (refFrags D.files D.toks) ++ [D.rbc] ++ eFR ++ D.mid1 ++ D.gid ++ lit24 (strL "Models") ++ D.gFill ++ chLit (strL "children") ++ D.gCh ++ joinL (childFrags D.files D.toks) ++ [')', ';'] ++ D.gMore ++ ['\x7d'] ++ D.mid2 ++ D.sid ++ lit24 (strL "Sources") ++ D.sFill ++ chLit (strL "files") ++ D.sFls ++ joinL (phaseFrags D.files D.toks) ++ [')', ';'] ++ D.sMore ++ ['\x7d'] ++ D.mid3) ++ bBF ++ D.bb0 ++ joinL (declFrags D.files D.toks) ++ [D.bbc] ++ eBF ++ D.post) := by
    have e3 : (D.pre ++ bFR ++ D.rb0 ++ joinL (refFrags D.files D.toks) ++ [D.rbc] ++ eFR ++ D.mid1 ++ D.gid ++ lit24 (strL "Models") ++ D.gFill ++ chLit (strL "children") ++ D.gCh ++ joinL (childFrags D.files D.toks) ++ [')', ';'] ++ D.gMore ++ ['\x7d'] ++ D.mid2) ++ D.sid ++ lit24 (strL "Sources") ++ D.sFill ++ chLit (strL "files") ++ D.sFls ++ joinL (phaseFrags D.files D.toks) ++ [')', ';'] ++ D.sMore ++ ['\x7d'] ++ (D.mid3 ++ bBF ++ D.bb0 ++ [D.bbc] ++ eBF ++ D.post)
        = (D.pre ++ bFR ++ D.rb0 ++ joinL (refFrags D.files D.toks) ++ [D.rbc] ++ eFR ++ D.mid1 ++ D.gid ++ lit24 (strL "Models") ++ D.gFill ++ chLit (strL "children") ++ D.gCh ++ joinL (childFrags D.files D.toks) ++ [')', ';'] ++ D.gMore ++ ['\x7d'] ++ D.mid2 ++ D.sid ++ lit24 (strL "Sources") ++ D.sFill ++ chLit (strL "files") ++ D.sFls ++ joinL (phaseFrags D.files D.toks) ++ [')', ';'] ++ D.sMore ++ ['\x7d'] ++ D.mid3) ++ bBF ++ D.bb0 ++ [D.bbc] ++ eBF ++ D.post := by
      simp [List.append_assoc]
    rw [e3]
    exact step4_spec (D.pre ++ bFR ++ D.rb0 ++ joinL (refFrags D.files D.toks) ++ [D.rbc] ++ eFR ++ D.mid1 ++ D.gid ++ lit24 (strL "Models") ++ D.gFill ++ chLit (strL "children") ++ D.gCh ++ joinL (childFrags D.files D.toks) ++ [')', ';'] ++ D.gMore ++ ['\x7d'] ++ D.mid2 ++ D.sid ++ lit24 (strL "Sources") ++ D.sFill ++ chLit (strL "files") ++ D.sFls ++ joinL (phaseFrags D.files D.toks) ++ [')', ';'] ++ D.sMore ++ ['\x7d'] ++ D.mid3) D.bb0 D.post D.bbc D.files D.toks hq5 hq6
  have e4 : (D.pre ++ bFR ++ D.rb0 ++ joinL (refFrags D.files D.toks) ++ [D.rbc] ++ eFR ++ D.mid1 ++ D.gid ++ lit24 (strL "Models") ++ D.gFill ++ chLit (strL "children") ++ D.gCh ++ joinL (childFrags D.files D.toks) ++ [')', ';'] ++ D.gMore ++ ['\x7d'] ++ D.mid2 ++ D.sid ++ lit24 (strL "Sources") ++ D.sFill ++ chLit (strL "files") ++ D.sFls ++ joinL (phaseFrags D.files D.toks) ++ [')', ';'] ++ D.sMore ++ ['\x7d'] ++ D.mid3) ++ bBF ++ D.bb0 ++ joinL (declFrags D.files D.toks) ++ [D.bbc] ++ eBF ++ D.post = outText D := by
    unfold outText
    simp [List.append_assoc]
  unfold add_files_to_pbxproj
  simp only [hst1, hst2, hst3, hst4, e4]

/-- Claim C1: for every well-formed descriptor containing the four required
scaffolding patterns and every filename list, the run succeeds and the output
is the input with exactly `N = files.length` new records of each of the four
kinds spliced in, in input order; for each filename the build-file
declaration's `fileRef` identifier is the same `refId` that names its
file-reference record and group child, and its own identifier is the same
`memId` that names its build-phase entry. -/
theorem claim_C1 (D : Desc) (h : wf D) :
    ∃ o1 o2 o3 o4 o5,
      add_files_to_pbxproj D.text D.files D.toks = Except.ok
        (o1 ++ joinL (D.files.map (fun f => mkFileRefLine (refId D.files D.toks f) f))
          ++ o2 ++ joinL (D.files.map (fun f => childLine (refId D.files D.toks f) f))
          ++ o3 ++ joinL (D.files.map (fun f => phaseLine (memId D.files D.toks f) f))
          ++ o4 ++ joinL (D.files.map (fun f => declLine (memId D.files D.toks f) (refId D.files D.toks f) f))
          ++ o5)
      ∧ o1 ++ o2 ++ o3 ++ o4 ++ o5 = D.text
      ∧ (D.files.map (fun f => mkFileRefLine (refId D.files D.toks f) f)).length
          = D.files.length := by
  refine ⟨D.pre ++ bFR ++ D.rb0, [D.rbc] ++ eFR ++ D.mid1 ++ D.gid ++ lit24 (strL "Models") ++ D.gFill ++ chLit (strL "children") ++ D.gCh,
    [')', ';'] ++ D.gMore ++ ['\x7d'] ++ D.mid2 ++ D.sid ++ lit24 (strL "Sources") ++ D.sFill ++ chLit (strL "files") ++ D.sFls,
    [')', ';'] ++ D.sMore ++ ['\x7d'] ++ D.mid3 ++ bBF ++ D.bb0, [D.bbc] ++ eBF ++ D.post, ?_, ?_, by simp⟩
  · have e : outText D
        = D.pre ++ bFR ++ D.rb0
          ++ joinL (D.files.map (fun f => mkFileRefLine (refId D.files D.toks f) f))
          ++ ([D.rbc] ++ eFR ++ D.mid1 ++ D.gid ++ lit24 (strL "Models") ++ D.gFill
            ++ chLit (strL "children") ++ D.gCh)
          ++ joinL (D.files.map (fun f => childLine (refId D.files D.toks f) f))
          ++ ([')', ';'] ++ D.gMore ++ ['\x7d'] ++ D.mid2 ++ D.sid ++ lit24 (strL "Sources")
            ++ D.sFill ++ chLit (strL "files") ++ D.sFls)
          ++ joinL (D.files.map (fun f => phaseLine (memId D.files D.toks f) f))
          ++ ([')', ';'] ++ D.sMore ++ ['\x7d'] ++ D.mid3 ++ bBF ++ D.bb0)
          ++ joinL (D.files.map (fun f =>
              declLine (memId D.files D.toks f) (refId D.files D.toks f) f))
          ++ ([D.bbc] ++ eBF ++ D.post) := by
      unfold outText refFrags childFrags phaseFrags declFrags
      simp [List.append_assoc]
    rw [add_files_desc D h, e]
  · unfold Desc.text
    simp [List.append_assoc]

/-- Claim C4: on every successful run over a well-formed descriptor, the
output text is the input text with only the four synthesized fragment blocks
spliced in; every character outside the four insertion points is unchanged
(the `oᵢ` pieces concatenate back to the exact input). -/
theorem claim_C4 (D : Desc) (h : wf D) :
    ∃ o1 o2 o3 o4 o5,
      add_files_to_pbxproj D.text D.files D.toks = Except.ok
        (o1 ++ joinL (refFrags D.files D.toks) ++ o2 ++ joinL (childFrags D.files D.toks)
          ++ o3 ++ joinL (phaseFrags D.files D.toks) ++ o4 ++ joinL (declFrags D.files D.toks)
          ++ o5)
      ∧ o1 ++ o2 ++ o3 ++ o4 ++ o5 = D.text := by
  refine ⟨D.pre ++ bFR ++ D.rb0, [D.rbc] ++ eFR ++ D.mid1 ++ D.gid ++ lit24 (strL "Models") ++ D.gFill ++ chLit (strL "children") ++ D.gCh,
    [')', ';'] ++ D.gMore ++ ['\x7d'] ++ D.mid2 ++ D.sid ++ lit24 (strL "Sources") ++ D.sFill ++ chLit (strL "files") ++ D.sFls,
    [')', ';'] ++ D.sMore ++ ['\x7d'] ++ D.mid3 ++ bBF ++ D.bb0, [D.bbc] ++ eBF ++ D.post, ?_, ?_⟩
  · have e : outText D
        = D.pre ++ bFR ++ D.rb0 ++ joinL (refFrags D.files D.toks)
          ++ ([D.rbc] ++ eFR ++ D.mid1 ++ D.gid ++ lit24 (strL "Models") ++ D.gFill
            ++ chLit (strL "children") ++ D.gCh)
          ++ joinL (childFrags D.files D.toks)
          ++ ([')', ';'] ++ D.gMore ++ ['\x7d'] ++ D.mid2 ++ D.sid ++ lit24 (strL "Sources")
            ++ D.sFill ++ chLit (strL "files") ++ D.sFls)
          ++ joinL (phaseFrags D.files D.toks)
          ++ ([')', ';'] ++ D.sMore ++ ['\x7d'] ++ D.mid3 ++ bBF ++ D.bb0)
          ++ joinL (declFrags D.files D.toks)
          ++ ([D.bbc] ++ eBF ++ D.post) := by
      unfold outText
      simp [List.append_assoc]
    rw [add_files_desc D h, e]
  · unfold Desc.text
    simp [List.append_assoc]

/-- A concrete well-formed descriptor used by the C1 and C4 witnesses. -/
def demoDesc : Desc where
  pre := strL "HEAD\n"
  rb0 := strL "\nREF0;"
  rbc := '\n'
  mid1 := strL "\n"
  gid := strL "AAAAAAAAAAAAAAAA00000001"
  gFill := strL "isa = PBXGroup; "
  gCh := strL "\n\t\t\t\tOLD1,\n\t\t\t"
  gMore := strL "\n\t\t\tpath = Models;\n\t\t"
  mid2 := strL "\n"
  sid := strL "AAAAAAAAAAAAAAAA00000002"
  sFill := strL "isa = PBXSourcesBuildPhase; "
  sFls := strL "\n\t\t\t\tOLD2,\n\t\t\t"
  sMore := strL "\n\t\t"
  mid3 := strL "\n"
  bb0 := strL "\nBLD0;"
  bbc := '\n'
  post := strL "\nTAIL\n"
  files := [strL "Activity.swift"]
  toks := [strL "AAAAAAAAAAAAAAAAAAAAAAA0", strL "AAAAAAAAAAAAAAAAAAAAAAA1"]

set_option maxRecDepth 16000 in
set_option maxHeartbeats 4000000 in
theorem claim_C1_witness :
    ∃ o1 o2 o3 o4 o5,
      add_files_to_pbxproj demoDesc.text demoDesc.files demoDesc.toks = Except.ok
        (o1 ++ joinL (demoDesc.files.map (fun f => mkFileRefLine (refId demoDesc.files demoDesc.toks f) f))
          ++ o2 ++ joinL (demoDesc.files.map (fun f => childLine (refId demoDesc.files demoDesc.toks f) f))
          ++ o3 ++ joinL (demoDesc.files.map (fun f => phaseLine (memId demoDesc.files demoDesc.toks f) f))
          ++ o4 ++ joinL (demoDesc.files.map (fun f => declLine (memId demoDesc.files demoDesc.toks f) (refId demoDesc.files demoDesc.toks f) f))
          ++ o5)
      ∧ o1 ++ o2 ++ o3 ++ o4 ++ o5 = demoDesc.text
      ∧ (demoDesc.files.map (fun f => mkFileRefLine (refId demoDesc.files demoDesc.toks f) f)).length
          = demoDesc.files.length :=
  claim_C1 demoDesc (by decide)

set_option maxRecDepth 16000 in
set_option maxHeartbeats 4000000 in
theorem claim_C4_witness :
    ∃ o1 o2 o3 o4 o5,
      add_files_to_pbxproj demoDesc.text demoDesc.files demoDesc.toks = Except.ok
        (o1 ++ joinL (refFrags demoDesc.files demoDesc.toks) ++ o2 ++ joinL (childFrags demoDesc.files demoDesc.toks)
          ++ o3 ++ joinL (phaseFrags demoDesc.files demoDesc.toks) ++ o4 ++ joinL (declFrags demoDesc.files demoDesc.toks)
          ++ o5)
      ∧ o1 ++ o2 ++ o3 ++ o4 ++ o5 = demoDesc.text :=
  claim_C4 demoDesc (by decide)

/-- A descriptor fragment holding two records that both match the
labelled-record pattern, separated by `mid`. -/
def twoRecText (lbl fld X gid1 fill1 ch1 more1 mid gid2 fill2 ch2 more2 Y : Str) : Str :=
  X ++ gid1 ++ lit24 lbl ++ fill1 ++ chLit fld ++ ch1 ++ [')', ';'] ++ more1 ++ ['\x7d']
    ++ mid ++ gid2 ++ lit24 lbl ++ fill2 ++ chLit fld ++ ch2 ++ [')', ';'] ++ more2
    ++ ['\x7d'] ++ Y

/-- Claim C10: when the text contains two records matching the
labelled-record pattern (for the Models group, `lbl = "Models"`,
`fld = "children"`; for the Sources phase, `lbl = "Sources"`,
`fld = "files"`), the search matches (second conjunct: the second record on
its own is also a match for the pattern), yet the new entries are spliced
into the leftmost record only, the second record surviving untouched, and no
error or ambiguity diagnostic arises (the search returns `some`). -/
theorem claim_C10 (lbl fld X gid1 fill1 ch1 more1 mid gid2 fill2 ch2 more2 Y blk : Str)
    (h1g : gid1.length = 24) (h1hex : ∀ c ∈ gid1, hexUC c = true)
    (h1f : fill1 ≠ []) (h1fb : ∀ c ∈ fill1, c ≠ '\x7d')
    (hclb : ∀ c ∈ chLit fld, c ≠ '\x7d')
    (h1c : ch1 ≠ []) (h1cb : ∀ c ∈ ch1, c ≠ '\x7d') (h1cp : ∀ c ∈ ch1, c ≠ ')')
    (h1m : ∀ c ∈ more1, c ≠ '\x7d')
    (h1u : ∀ q, occAt (chLit fld) (fill1 ++ chLit fld ++ ch1 ++ [')', ';'] ++ more1) q →
      q = fill1.length)
    (hpre : noPre (lit24 lbl) (X ++ gid1))
    (h2g : gid2.length = 24) (h2hex : ∀ c ∈ gid2, hexUC c = true)
    (h2f : fill2 ≠ []) (h2fb : ∀ c ∈ fill2, c ≠ '\x7d')
    (h2c : ch2 ≠ []) (h2cb : ∀ c ∈ ch2, c ≠ '\x7d') (h2cp : ∀ c ∈ ch2, c ≠ ')')
    (h2m : ∀ c ∈ more2, c ≠ '\x7d')
    (h2u : ∀ q, occAt (chLit fld) (fill2 ++ chLit fld ++ ch2 ++ [')', ';'] ++ more2) q →
      q = fill2.length) :
    searchRec lbl fld (twoRecText lbl fld X gid1 fill1 ch1 more1 mid gid2 fill2 ch2 more2 Y)
      = some (X.length + 24 + (lit24 lbl).length + fill1.length + (chLit fld).length
        + ch1.length)
    ∧ matchRecAt lbl fld (twoRecText lbl fld X gid1 fill1 ch1 more1 mid gid2 fill2 ch2 more2 Y)
        ((X ++ gid1 ++ lit24 lbl ++ fill1 ++ chLit fld ++ ch1 ++ [')', ';'] ++ more1
          ++ ['\x7d'] ++ mid).length) ≠ none
    ∧ (searchRec lbl fld
        (twoRecText lbl fld X gid1 fill1 ch1 more1 mid gid2 fill2 ch2 more2 Y)).map
        (fun e => splice
          (twoRecText lbl fld X gid1 fill1 ch1 more1 mid gid2 fill2 ch2 more2 Y) e blk)
      = some (X ++ gid1 ++ lit24 lbl ++ fill1 ++ chLit fld ++ ch1 ++ blk ++ [')', ';']
        ++ more1 ++ ['\x7d'] ++ (mid ++ gid2 ++ lit24 lbl ++ fill2 ++ chLit fld ++ ch2
        ++ [')', ';'] ++ more2 ++ ['\x7d'] ++ Y)) := by
  have e1 : twoRecText lbl fld X gid1 fill1 ch1 more1 mid gid2 fill2 ch2 more2 Y
      = X ++ gid1 ++ lit24 lbl ++ fill1 ++ chLit fld ++ ch1 ++ [')', ';'] ++ more1
        ++ ['\x7d'] ++ (mid ++ gid2 ++ lit24 lbl ++ fill2 ++ chLit fld ++ ch2 ++ [')', ';']
        ++ more2 ++ ['\x7d'] ++ Y) := by
    unfold twoRecText
    simp [List.append_assoc]
  have e2 : twoRecText lbl fld X gid1 fill1 ch1 more1 mid gid2 fill2 ch2 more2 Y
      = (X ++ gid1 ++ lit24 lbl ++ fill1 ++ chLit fld ++ ch1 ++ [')', ';'] ++ more1
        ++ ['\x7d'] ++ mid) ++ gid2 ++ lit24 lbl ++ fill2 ++ chLit fld ++ ch2 ++ [')', ';']
        ++ more2 ++ ['\x7d'] ++ Y := by
    unfold twoRecText
    simp [List.append_assoc]
  refine ⟨?_, ?_, ?_⟩
  · rw [e1]
    exact searchRec_spec lbl fld X gid1 fill1 ch1 more1 _ h1g h1hex h1f h1fb hclb
      h1c h1cb h1cp h1m h1u hpre
  · rw [e2]
    rw [matchRecAt_spec lbl fld
      (X ++ gid1 ++ lit24 lbl ++ fill1 ++ chLit fld ++ ch1 ++ [')', ';'] ++ more1
        ++ ['\x7d'] ++ mid) gid2 fill2 ch2 more2 Y h2g h2hex h2f h2fb hclb
      h2c h2cb h2cp h2m h2u]
    simp
  · rw [e1]
    exact searchRec_insert lbl fld X gid1 fill1 ch1 more1
      (mid ++ gid2 ++ lit24 lbl ++ fill2 ++ chLit fld ++ ch2 ++ [')', ';'] ++ more2
        ++ ['\x7d'] ++ Y) blk h1g h1hex h1f h1fb hclb h1c h1cb h1cp h1m h1u hpre

lemma uniq_of_bounded (cl R : Str) (n : Nat) (hcl : cl ≠ [])
    (h : ∀ q < R.length, occAt cl R q → q = n) :
    ∀ q, occAt cl R q → q = n := by
  intro q hq
  have hlen := occAt_len cl R q hcl hq
  have hpos : 0 < cl.length := List.length_pos.mpr hcl
  exact h q (by omega) hq

/-- Concrete parts for the C10 witness: two Models-group records. -/
def c10X : Str := strL "P\n"

/-- First record id of the C10 witness. -/
def c10g1 : Str := strL "AAAAAAAAAAAAAAAA00000001"

/-- Second record id of the C10 witness. -/
def c10g2 : Str := strL "AAAAAAAAAAAAAAAA00000002"

theorem claim_C10_witness :
    searchRec (strL "Models") (strL "children")
      (twoRecText (strL "Models") (strL "children") c10X c10g1 (strL "isa; ") (strL "a")
        (strL "") (strL "\n") c10g2 (strL "isa; ") (strL "b") (strL "") (strL "\nQ"))
      = some (c10X.length + 24 + (lit24 (strL "Models")).length + (strL "isa; ").length
        + (chLit (strL "children")).length + (strL "a").length)
    ∧ matchRecAt (strL "Models") (strL "children")
        (twoRecText (strL "Models") (strL "children") c10X c10g1 (strL "isa; ") (strL "a")
          (strL "") (strL "\n") c10g2 (strL "isa; ") (strL "b") (strL "") (strL "\nQ"))
        ((c10X ++ c10g1 ++ lit24 (strL "Models") ++ strL "isa; " ++ chLit (strL "children")
          ++ strL "a" ++ [')', ';'] ++ strL "" ++ ['\x7d'] ++ strL "\n").length) ≠ none
    ∧ (searchRec (strL "Models") (strL "children")
        (twoRecText (strL "Models") (strL "children") c10X c10g1 (strL "isa; ") (strL "a")
          (strL "") (strL "\n") c10g2 (strL "isa; ") (strL "b") (strL "") (strL "\nQ"))).map
        (fun e => splice
          (twoRecText (strL "Models") (strL "children") c10X c10g1 (strL "isa; ") (strL "a")
            (strL "") (strL "\n") c10g2 (strL "isa; ") (strL "b") (strL "") (strL "\nQ"))
          e (strL "NEW,"))
      = some (c10X ++ c10g1 ++ lit24 (strL "Models") ++ strL "isa; "
        ++ chLit (strL "children") ++ strL "a" ++ strL "NEW," ++ [')', ';'] ++ strL ""
        ++ ['\x7d'] ++ (strL "\n" ++ c10g2 ++ lit24 (strL "Models") ++ strL "isa; "
        ++ chLit (strL "children") ++ strL "b" ++ [')', ';'] ++ strL "" ++ ['\x7d']
        ++ strL "\nQ")) :=
  claim_C10 (strL "Models") (strL "children") c10X c10g1 (strL "isa; ") (strL "a")
    (strL "") (strL "\n") c10g2 (strL "isa; ") (strL "b") (strL "") (strL "\nQ")
    (strL "NEW,") (by decide) (by decide) (by decide) (by decide) (by decide)
    (by decide) (by decide) (by decide) (by decide)
    (uniq_of_bounded _ _ _ (by decide) (by decide)) (by decide)
    (by decide) (by decide) (by decide) (by decide) (by decide) (by decide)
    (by decide) (by decide)
    (uniq_of_bounded _ _ _ (by decide) (by decide))

lemma lit24_ne (lbl : Str) : lit24 lbl ≠ [] := by
  unfold lit24 strL
  simp

lemma searchRec_empty_none (lbl fld A gid fill more B : Str)
    (hgid : gid.length = 24)
    (hfillb : ∀ c ∈ fill, c ≠ '\x7d')
    (hclb : ∀ c ∈ chLit fld, c ≠ '\x7d')
    (hmore : ∀ c ∈ more, c ≠ '\x7d')
    (huniq : ∀ q, occAt (chLit fld) (fill ++ chLit fld ++ [')', ';'] ++ more) q →
      q = fill.length)
    (honly : ∀ p, occAt (lit24 lbl)
      (A ++ gid ++ lit24 lbl ++ fill ++ chLit fld ++ [')', ';'] ++ more ++ ['\x7d'] ++ B) p →
      p = A.length + 24) :
    searchRec lbl fld
      (A ++ gid ++ lit24 lbl ++ fill ++ chLit fld ++ [')', ';'] ++ more ++ ['\x7d'] ++ B)
      = none := by
  set T := A ++ gid ++ lit24 lbl ++ fill ++ chLit fld ++ [')', ';'] ++ more ++ ['\x7d'] ++ B
    with hT
  have hdp0 : T.drop (A.length + 24 + (lit24 lbl).length)
      = fill ++ chLit fld ++ [')', ';'] ++ more ++ '\x7d' :: B := by
    have h1 : T = (A ++ gid ++ lit24 lbl)
        ++ (fill ++ chLit fld ++ [')', ';'] ++ more ++ '\x7d' :: B) := by
      rw [hT]
      simp [List.append_assoc]
    have h2 : A.length + 24 + (lit24 lbl).length = (A ++ gid ++ lit24 lbl).length := by
      simp only [List.length_append, hgid]
    rw [h1, h2, dropApp]
  have hrun : runEnd T (A.length + 24 + (lit24 lbl).length)
      = A.length + 24 + (lit24 lbl).length
        + (fill.length + (chLit fld).length + 2 + more.length) := by
    unfold runEnd
    have hre : fill ++ chLit fld ++ [')', ';'] ++ more ++ '\x7d' :: B
        = (fill ++ chLit fld ++ [')', ';'] ++ more) ++ '\x7d' :: B := by
      simp [List.append_assoc]
    have hall : ∀ x ∈ fill ++ chLit fld ++ [')', ';'] ++ more, (x == '\x7d') = false := by
      intro x hx
      simp only [List.mem_append, List.mem_cons, List.not_mem_nil, or_false] at hx
      rcases hx with ⟨⟨hx | hx⟩ | hx | hx⟩ | hx
      · exact ne_to_beq_false (hfillb x hx)
      · exact ne_to_beq_false (hclb x hx)
      · subst hx; decide
      · subst hx; decide
      · exact ne_to_beq_false (hmore x hx)
    rw [hdp0, hre, firstP_append _ _ _ _ hall (by decide)]
    simp only [List.length_append, List.length_cons, List.length_nil]
  apply scanUp_none
  intro j
  by_cases hj : occAt (lit24 lbl) T (j + 24)
  case neg => exact matchRecAt_none lbl fld T j hj
  case pos =>
    have hjA : j + 24 = A.length + 24 := honly _ hj
    have hjA2 : j = A.length := by omega
    subst hjA2
    unfold matchRecAt
    cases hcond : (hex24At T A.length && occB (lit24 lbl) T (A.length + 24)) with
    | false => simp
    | true =>
      simp only [if_true]
      rw [hrun]
      apply scanDown_none
      intro k hk1 hk2
      by_cases hb : occB (chLit fld) T k = true
      · have hocc : occAt (chLit fld) T k := (occB_iff _ _ _).mp hb
        have hXl : (A ++ gid ++ lit24 lbl).length = A.length + 24 + (lit24 lbl).length := by
          simp only [List.length_append, hgid]
        have hRl : (fill ++ chLit fld ++ [')', ';'] ++ more).length
            = fill.length + (chLit fld).length + 2 + more.length := by
          simp only [List.length_append, List.length_cons, List.length_nil]
        have hkM : k + (chLit fld).length ≤ A.length + 24 + (lit24 lbl).length
            + (fill.length + (chLit fld).length + 2 + more.length) := by
          by_contra hcon
          push_neg at hcon
          have hr : (A.length + 24 + (lit24 lbl).length
              + (fill.length + (chLit fld).length + 2 + more.length)) - k
              < (chLit fld).length := by omega
          have h1 := occAt_nthC (chLit fld) T k _ hr hocc
          have hMj : k + ((A.length + 24 + (lit24 lbl).length
              + (fill.length + (chLit fld).length + 2 + more.length)) - k)
              = A.length + 24 + (lit24 lbl).length
                + (fill.length + (chLit fld).length + 2 + more.length) := by
            omega
          rw [hMj] at h1
          have hM : nthC T (A.length + 24 + (lit24 lbl).length
              + (fill.length + (chLit fld).length + 2 + more.length)) = some '\x7d' := by
            have hsh : T = (A ++ gid ++ lit24 lbl ++ fill ++ chLit fld ++ [')', ';']
                ++ more) ++ '\x7d' :: B := by
              rw [hT]
              simp [List.append_assoc]
            have hlen : A.length + 24 + (lit24 lbl).length
                + (fill.length + (chLit fld).length + 2 + more.length)
                = (A ++ gid ++ lit24 lbl ++ fill ++ chLit fld ++ [')', ';']
                  ++ more).length + 0 := by
              simp only [List.length_append, hgid, List.length_cons, List.length_nil]
              omega
            rw [hlen, hsh, nthC_append]
            rfl
          rw [hM] at h1
          obtain ⟨c, hc1, hc2⟩ := nthC_mem (chLit fld) _ hr
          rw [hc1] at h1
          have hcontra : c = '\x7d' := by
            injection h1 with h1w
            exact h1w.symm
          exact hclb c hc2 hcontra
        have hsh : T = (A ++ gid ++ lit24 lbl)
            ++ (fill ++ chLit fld ++ [')', ';'] ++ more) ++ '\x7d' :: B := by
          rw [hT]
          simp [List.append_assoc]
        rw [hsh] at hocc
        have hw := occAt_within (chLit fld) (A ++ gid ++ lit24 lbl)
          (fill ++ chLit fld ++ [')', ';'] ++ more) ('\x7d' :: B) k
          (by omega) (by rw [hXl, hRl]; omega) hocc
        have hkq := huniq _ hw
        rw [hXl] at hkq
        have hkv : k = A.length + 24 + (lit24 lbl).length + fill.length := by omega
        subst hkv
        unfold tryK
        rw [hb]
        simp only [if_true]
        unfold qCheck
        have hdq : T.drop (A.length + 24 + (lit24 lbl).length + fill.length
            + (chLit fld).length) = ')' :: ';' :: (more ++ '\x7d' :: B) := by
          have h1 : T = (A ++ gid ++ lit24 lbl ++ fill ++ chLit fld)
              ++ ')' :: ';' :: (more ++ '\x7d' :: B) := by
            rw [hT]
            simp [List.append_assoc]
          have h2 : A.length + 24 + (lit24 lbl).length + fill.length + (chLit fld).length
              = (A ++ gid ++ lit24 lbl ++ fill ++ chLit fld).length := by
            simp only [List.length_append, hgid]
          rw [h1, h2, dropApp]
        rw [hdq]
        simp [firstP]
      · unfold tryK
        rw [Bool.not_eq_true] at hb
        rw [hb]
        simp

/-- A text consisting of a single labelled record whose list field is empty:
`<id> /* <label> */ = {<fill><field> = ();<more>}` with surroundings. -/
def emptyRecText (lbl fld A gid fill more B : Str) : Str :=
  A ++ gid ++ lit24 lbl ++ fill ++ chLit fld ++ [')', ';'] ++ more ++ ['\x7d'] ++ B

/-- Claim C8: a group record annotated `Models` (resp. a build phase
annotated `Sources`) whose list field has zero characters between its
parentheses is not matched by the locator, because `[^)]+` requires at least
one character: when the text the corresponding step searches contains such a
record as the only occurrence of its header literal, `add_files_to_pbxproj`
reports that the Models group (resp. the Sources build phase) could not be
found and returns failure, even though the record is present. -/
theorem claim_C8 :
    (∀ content files toks A gid fill more B,
      gid.length = 24 →
      (∀ c ∈ fill, c ≠ '\x7d') → (∀ c ∈ more, c ≠ '\x7d') →
      (∀ q, occAt (chLit (strL "children"))
        (fill ++ chLit (strL "children") ++ [')', ';'] ++ more) q → q = fill.length) →
      (∀ p, occAt (lit24 (strL "Models"))
        (emptyRecText (strL "Models") (strL "children") A gid fill more B) p →
        p = A.length + 24) →
      step1 content files toks
        = some (emptyRecText (strL "Models") (strL "children") A gid fill more B) →
      add_files_to_pbxproj content files toks = Except.error Err.modelsGroup
        ∧ errMsg Err.modelsGroup = strL "Error: Could not find Models group")
    ∧ (∀ content files toks c1 A gid fill more B,
      gid.length = 24 →
      (∀ c ∈ fill, c ≠ '\x7d') → (∀ c ∈ more, c ≠ '\x7d') →
      (∀ q, occAt (chLit (strL "files"))
        (fill ++ chLit (strL "files") ++ [')', ';'] ++ more) q → q = fill.length) →
      (∀ p, occAt (lit24 (strL "Sources"))
        (emptyRecText (strL "Sources") (strL "files") A gid fill more B) p →
        p = A.length + 24) →
      step1 content files toks = some c1 →
      step2 c1 files toks
        = some (emptyRecText (strL "Sources") (strL "files") A gid fill more B) →
      add_files_to_pbxproj content files toks = Except.error Err.sourcesPhase
        ∧ errMsg Err.sourcesPhase = strL "Error: Could not find Sources build phase") := by
  constructor
  · intro content files toks A gid fill more B hgid hfb hmb hu ho hstep
    have hs2 : step2 (emptyRecText (strL "Models") (strL "children") A gid fill more B)
        files toks = none := by
      unfold step2
      have hsr : searchRec (strL "Models") (strL "children")
          (emptyRecText (strL "Models") (strL "children") A gid fill more B) = none :=
        searchRec_empty_none (strL "Models") (strL "children") A gid fill more B
          hgid hfb (by decide) hmb hu ho
      rw [hsr]
      rfl
    constructor
    · unfold add_files_to_pbxproj
      simp only [hstep, hs2]
    · rfl
  · intro content files toks c1 A gid fill more B hgid hfb hmb hu ho hstep1 hstep2
    have hs3 : step3 (emptyRecText (strL "Sources") (strL "files") A gid fill more B)
        files toks = none := by
      unfold step3
      have hsr : searchRec (strL "Sources") (strL "files")
          (emptyRecText (strL "Sources") (strL "files") A gid fill more B) = none :=
        searchRec_empty_none (strL "Sources") (strL "files") A gid fill more B
          hgid hfb (by decide) hmb hu ho
      rw [hsr]
      rfl
    constructor
    · unfold add_files_to_pbxproj
      simp only [hstep1, hstep2, hs3]
    · rfl

/-- Original descriptor for the C8 witness: a file-reference section followed
by a Models group whose `children` list is empty. -/
def c8content : Str :=
  strL "/* Begin PBXFileReference section */\nR\n/* End PBXFileReference section */\n"
    ++ strL "AAAAAAAAAAAAAAAA00000001" ++ lit24 (strL "Models") ++ strL "isa; "
    ++ chLit (strL "children") ++ [')', ';'] ++ strL "\n" ++ ['\x7d'] ++ strL ";\nZ"

/-- Step-2 search prefix of the C8 witness (the step-1 output up to the
Models record id). -/
def c8A : Str :=
  strL "/* Begin PBXFileReference section */\nR"
    ++ mkFileRefLine (strL "AAAAAAAAAAAAAAAAAAAAAAA0") (strL "A.swift")
    ++ strL "\n/* End PBXFileReference section */\n"

set_option maxRecDepth 16000 in
set_option maxHeartbeats 4000000 in
theorem claim_C8_witness :
    add_files_to_pbxproj c8content [strL "A.swift"]
      [strL "AAAAAAAAAAAAAAAAAAAAAAA0", strL "AAAAAAAAAAAAAAAAAAAAAAA1"]
      = Except.error Err.modelsGroup
    ∧ errMsg Err.modelsGroup = strL "Error: Could not find Models group" :=
  claim_C8.1 c8content [strL "A.swift"]
    [strL "AAAAAAAAAAAAAAAAAAAAAAA0", strL "AAAAAAAAAAAAAAAAAAAAAAA1"]
    c8A (strL "AAAAAAAAAAAAAAAA00000001") (strL "isa; ") (strL "\n") (strL ";\nZ")
    (by decide) (by decide) (by decide)
    (uniq_of_bounded _ _ _ (by decide) (by decide))
    (uniq_of_bounded _ _ _ (lit24_ne _) (by decide))
    (by decide)

/-- Token pool for the C3 evaluation. -/
def c3toks : List Str := [strL "AAAAAAAAAAAAAAAAAAAAAAA0", strL "AAAAAAAAAAAAAAAAAAAAAAA1"]

set_option maxRecDepth 16000 in
set_option maxHeartbeats 4000000 in
/-- Claim C3 (code bug): the claim says fragments are inserted immediately
before the first character of the section end marker, which is also what the
code's comment intends; but since the regex match stops at `*/` while the
code subtracts `len(marker + '\n')`, the splice lands one character early.
Here the end markers start at offsets 39 and 35 of the two descriptors, yet
step 1 and step 4 splice at offsets 38 and 34 — before the newline that ends
the previous line — and the result differs from the splice at the marker. -/
theorem claim_C3 :
    occAt eFR (bFR ++ strL "\nR\n" ++ eFR) 39
    ∧ step1 (bFR ++ strL "\nR\n" ++ eFR) [strL "A.swift"] c3toks
      = some (splice (bFR ++ strL "\nR\n" ++ eFR) 38 (joinL (refFrags [strL "A.swift"] c3toks)))
    ∧ splice (bFR ++ strL "\nR\n" ++ eFR) 38 (joinL (refFrags [strL "A.swift"] c3toks))
      ≠ splice (bFR ++ strL "\nR\n" ++ eFR) 39 (joinL (refFrags [strL "A.swift"] c3toks))
    ∧ occAt eBF (bBF ++ strL "\nB\n" ++ eBF) 35
    ∧ step4 (bBF ++ strL "\nB\n" ++ eBF) [strL "A.swift"] c3toks
      = some (splice (bBF ++ strL "\nB\n" ++ eBF) 34 (joinL (declFrags [strL "A.swift"] c3toks)))
    ∧ splice (bBF ++ strL "\nB\n" ++ eBF) 34 (joinL (declFrags [strL "A.swift"] c3toks))
      ≠ splice (bBF ++ strL "\nB\n" ++ eBF) 35 (joinL (declFrags [strL "A.swift"] c3toks)) := by
  refine ⟨by decide, by decide, by decide, by decide, by decide, by decide⟩
